import Mathlib

/-!
Shallow embedding of the multi-strategy channel consensus engine
(`src/analysis/strategies.py` and `src/analysis/channel_analyzer.py`).

Modelling conventions:
* Python floats are modelled as exact rationals (`ℚ`).
* `round(x, d)` (Python round-half-to-even) is modelled by `roundDec`.
* Two third-party numeric primitives are abstracted as parameters,
  because their values are irrelevant to every claim:
  - the trend-strength (ADX) value computed by `ta.trend.ADXIndicator`
    (wrapped by `BaseChannelStrategy._calc_adx`) is passed to each
    strategy's `analyze` model as a rational parameter `adx`;
  - the floating-point square root used by `np.std` / rolling `.std(ddof=0)`
    is passed as a function parameter `sqrtQ : ℚ → ℚ`.
* Rational division by zero is `0` in Lean; the corresponding Python code
  paths (zero-width bands, `NaN` guards) are noted at each definition.
* Side-effecting prints (warnings) are dropped; only values are modelled.
-/

/-- Python `round`-half-to-even of a rational to an integer. -/
def roundHalfEven (q : ℚ) : ℤ :=
  let f : ℤ := ⌊q⌋
  let r : ℚ := q - f
  if r < 1/2 then f
  else if 1/2 < r then f + 1
  else if Even f then f else f + 1

/-- Python `round(x, d)`: round to `d` decimal places, half to even. -/
def roundDec (d : ℕ) (q : ℚ) : ℚ :=
  (roundHalfEven (q * (10 : ℚ) ^ d) : ℚ) / (10 : ℚ) ^ d

/-- Model of `np.max` over a list (`0` on the empty list, which raises in numpy). -/
def maxQ : List ℚ → ℚ
  | [] => 0
  | h :: t => t.foldl max h

/-- Model of `np.min` over a list (`0` on the empty list, which raises in numpy). -/
def minQ : List ℚ → ℚ
  | [] => 0
  | h :: t => t.foldl min h

/-- Arithmetic mean of a list (`np.mean` / pandas `.mean()`); `0` on `[]`. -/
def meanQ (l : List ℚ) : ℚ := l.sum / l.length

/-- The last `n` elements of a list (pandas `.tail(n)`). -/
def lastN (n : ℕ) (l : List α) : List α := l.drop (l.length - n)

/-- Model of `series.iloc[-1]` with default (the series is nonempty at every use). -/
def lastD (l : List ℚ) : ℚ := l.getLastD 0

/-- Insertion into a sorted list, for `sortQ`. -/
def insertSorted (x : ℚ) : List ℚ → List ℚ
  | [] => [x]
  | h :: t => if x ≤ h then x :: h :: t else h :: insertSorted x t

/-- Insertion sort, used only by the median model. -/
def sortQ : List ℚ → List ℚ
  | [] => []
  | h :: t => insertSorted h (sortQ t)

/-- pandas `Series.median()`: middle of the sorted list, or the mean of the
two middle elements for even length; `0` on `[]` (pandas gives `NaN`). -/
def medianQ (l : List ℚ) : ℚ :=
  let s := sortQ l
  let n := s.length
  if n = 0 then 0
  else if n % 2 = 1 then s.getD (n / 2) 0
  else (s.getD (n / 2 - 1) 0 + s.getD (n / 2) 0) / 2

/-- One OHLCV bar (the `open` column is `op`: `open` is a Lean keyword).
`time` is the bar timestamp in abstract integral units. -/
structure Bar where
  time : ℕ
  op : ℚ
  high : ℚ
  low : ℚ
  close : ℚ
  volume : ℚ
  deriving Repr, DecidableEq

/-- The `close` column of a bar series. -/
def closes (df : List Bar) : List ℚ := df.map Bar.close

/-- The `high` column of a bar series. -/
def highs (df : List Bar) : List ℚ := df.map Bar.high

/-- The `low` column of a bar series. -/
def lows (df : List Bar) : List ℚ := df.map Bar.low

-- ============================================================
-- Channel-type constants (`strategies.py` lines 22-25)
-- ============================================================

def CHANNEL_UP : String := "📈 上涨通道"
def CHANNEL_DOWN : String := "📉 下跌通道"
def CHANNEL_SIDEWAYS : String := "↔️  横盘震荡"
def CHANNEL_TRANSITION : String := "🔄 趋势转换中"

-- ============================================================
-- BaseChannelStrategy helpers
-- ============================================================

/-- Model of `BaseChannelStrategy._calc_position_pct`: position of `price` inside
`[lower, upper]` as a percentage clamped to `[0,100]` and rounded to one
decimal; `50.0` when the band width is not positive. -/
def calc_position_pct (price upper lower : ℚ) : ℚ :=
  let width := upper - lower
  if width > 0 then
    roundDec 1 (max 0 (min 100 ((price - lower) / width * 100)))
  else 50

/-- Rolling SMA, last value: `close.rolling(window=w).mean().iloc[-1]`.
`none` models the `NaN` produced when fewer than `w` bars exist (and the
pandas error for `w = 0`). -/
def smaLast (l : List ℚ) (w : ℕ) : Option ℚ :=
  if w = 0 ∨ l.length < w then none else some (meanQ (lastN w l))

/-- Model of `BaseChannelStrategy._calc_sma_cross`: `(short value, long value, label)`.
The label is compared on unrounded SMA values, as in the source. -/
def calc_sma_cross (cl : List ℚ) (short long : ℕ) : Option ℚ × Option ℚ × String :=
  match smaLast cl short, smaLast cl long with
  | some s, some l =>
      (some (roundDec 2 s), some (roundDec 2 l),
        if s > l then "多头排列" else "空头排列")
  | _, _ => (none, none, "数据不足")

/-- The label component of `_calc_sma_cross`. -/
def smaCrossLabel (cl : List ℚ) (short long : ℕ) : String :=
  (calc_sma_cross cl short long).2.2

-- ============================================================
-- Unified result shape
-- ============================================================

/-- A value in the strategy-specific `details` dict. -/
inductive DVal where
  | num (q : ℚ)
  | nat (n : ℕ)
  | str (s : String)
  | null
  deriving Repr, DecidableEq

/-- Python `None`-or-number detail values. -/
def DVal.ofOpt : Option ℚ → DVal
  | Option.none => .null
  | some q => .num q

/-- The common fields of a non-error strategy result dict. -/
structure ChannelResult where
  strategy_name : String
  channel_type : String
  current_price : ℚ
  upper_band : ℚ
  lower_band : ℚ
  center : ℚ
  position_pct : ℚ
  sma_cross : String
  details : List (String × DVal)
  deriving Repr, DecidableEq

/-- A strategy `analyze` outcome: the error variant carries only the
message string, never numeric channel fields. -/
inductive AnalyzeResult where
  | error (msg : String)
  | ok (r : ChannelResult)
  deriving Repr, DecidableEq

/-- Model of `"error" not in r` in the Python dicts. -/
def AnalyzeResult.isOk : AnalyzeResult → Bool
  | .error _ => false
  | .ok _ => true

/-- The `channel_type` field of a non-error result. -/
def AnalyzeResult.channelType? : AnalyzeResult → Option String
  | .error _ => none
  | .ok r => some r.channel_type

/-- The insufficient-data error message built by each strategy guard. -/
def insufficientMsg (need got : ℕ) : String :=
  "数据不足：需要 " ++ toString need ++ " 根，实际 " ++ toString got ++ " 根"

-- ============================================================
-- Degree-1 least squares (`np.polyfit(x, y, 1)`)
-- ============================================================

/-- Sum of indices of a series (x-values `0, 1, …, n-1`). -/
def sumX (c : List ℚ) : ℚ := (c.enum.map (fun p => (p.1 : ℚ))).sum

/-- Sum of squared indices. -/
def sumXX (c : List ℚ) : ℚ := (c.enum.map (fun p => (p.1 : ℚ) ^ 2)).sum

/-- Sum of index-value products. -/
def sumXY (c : List ℚ) : ℚ := (c.enum.map (fun p => (p.1 : ℚ) * p.2)).sum

/-- Normal-equation denominator `n·Σx² - (Σx)²`. -/
def fitDen (c : List ℚ) : ℚ := c.length * sumXX c - (sumX c) ^ 2

/-- Least-squares slope of `np.polyfit(arange(n), c, 1)` (`coeffs[0]`). -/
def linregSlope (c : List ℚ) : ℚ :=
  (c.length * sumXY c - sumX c * c.sum) / fitDen c

/-- Least-squares intercept (`coeffs[1]`). -/
def linregIntercept (c : List ℚ) : ℚ :=
  (c.sum - linregSlope c * sumX c) / c.length

/-- Model of `np.polyval(coeffs, x)` over the series indices: the fitted line. -/
def regLine (c : List ℚ) : List ℚ :=
  c.enum.map (fun p => linregSlope c * (p.1 : ℚ) + linregIntercept c)

/-- Residuals `close - regression_line`. -/
def residuals (c : List ℚ) : List ℚ :=
  c.enum.map (fun p => p.2 - (linregSlope c * (p.1 : ℚ) + linregIntercept c))

/-- Model of `np.sum((close - regression_line) ** 2)`. -/
def ssRes (c : List ℚ) : ℚ := ((residuals c).map (fun r => r ^ 2)).sum

/-- Model of `np.sum((close - np.mean(close)) ** 2)`. -/
def ssTot (c : List ℚ) : ℚ := (c.map (fun x => (x - meanQ c) ^ 2)).sum

/-- Model of `r_squared = 1 - ss_res/ss_tot if ss_tot > 0 else 0`. -/
def linregR2 (c : List ℚ) : ℚ :=
  if ssTot c > 0 then 1 - ssRes c / ssTot c else 0

/-- Model of `np.mean((l - mean l)²)`: population variance (`ddof=0`). -/
def varQ (l : List ℚ) : ℚ := meanQ (l.map (fun x => (x - meanQ l) ^ 2))

-- ============================================================
-- Strategy 1: LinearRegressionStrategy.analyze
-- ============================================================

/-- The classification chain of `LinearRegressionStrategy.analyze`
(lines 146-157), including the MA-alignment override. -/
def linregChannelType (r2 slope adx adx_threshold r2_threshold : ℚ)
    (sma_cross : String) : String :=
  let cht0 :=
    if r2 ≥ r2_threshold ∧ adx ≥ adx_threshold then
      (if slope > 0 then CHANNEL_UP else CHANNEL_DOWN)
    else if r2 ≥ r2_threshold then CHANNEL_TRANSITION
    else CHANNEL_SIDEWAYS
  if sma_cross = "多头排列" ∧ cht0 = CHANNEL_DOWN then CHANNEL_TRANSITION
  else if sma_cross = "空头排列" ∧ cht0 = CHANNEL_UP then CHANNEL_TRANSITION
  else cht0

/-- Model of `LinearRegressionStrategy.analyze`.  `adx` stands for the value of
`self._calc_adx(df, lookback)` (third-party `ta` ADX, abstracted) and
`sqrtQ` for the float square root inside `np.std`. -/
def linreg_analyze (adx_threshold r2_threshold : ℚ) (sqrtQ : ℚ → ℚ)
    (adx : ℚ) (df : List Bar) (lookback sma_short sma_long : ℕ) : AnalyzeResult :=
  let min_bars := max lookback (sma_long + 10)
  if df.length < min_bars then .error (insufficientMsg min_bars df.length)
  else
    let c := lastN lookback (closes df)
    let slope := linregSlope c
    let r2 := linregR2 c
    let std_dev := sqrtQ (varQ (residuals c))
    let center := lastD (regLine c)
    let upper := center + 3/2 * std_dev
    let lower := center - 3/2 * std_dev
    let sc := calc_sma_cross (closes df) sma_short sma_long
    let current_price := lastD c
    let slope_pct := if current_price > 0 then slope / current_price * 100 else 0
    let cht := linregChannelType r2 slope adx adx_threshold r2_threshold sc.2.2
    .ok {
      strategy_name := "线性回归"
      channel_type := cht
      current_price := roundDec 2 current_price
      upper_band := roundDec 2 upper
      lower_band := roundDec 2 lower
      center := roundDec 2 center
      position_pct := calc_position_pct current_price upper lower
      sma_cross := sc.2.2
      details := [
        ("slope", .num (roundDec 4 slope)),
        ("slope_pct", .num (roundDec 4 slope_pct)),
        ("r_squared", .num (roundDec 4 r2)),
        ("adx", .num adx),
        ("sma_short_val", .ofOpt sc.1),
        ("sma_long_val", .ofOpt sc.2.1),
        ("band_width", .num (roundDec 2 (std_dev * 3)))] }

-- ============================================================
-- Rolling windows (pandas `.rolling(w)` valid rows, i.e. after `.dropna()`)
-- ============================================================

/-- All full windows of width `w`: entry `j` covers source rows
`j … j+w-1`.  The list of valid (non-`NaN`) rolling values is the map of an
aggregator over these windows. -/
def windowsOf (w : ℕ) (l : List ℚ) : List (List ℚ) :=
  (List.range (l.length + 1 - w)).map (fun j => (l.drop j).take w)

-- ============================================================
-- Strategy 2: BollingerBandStrategy.analyze
-- ============================================================

/-- The classification chain of `BollingerBandStrategy.analyze`
(lines 237-246). -/
def bollingerChannelType (bw_is_narrow : Bool) (ma_slope adx : ℚ) : String :=
  if bw_is_narrow ∧ adx < 20 then CHANNEL_SIDEWAYS
  else if ma_slope > 0 ∧ adx ≥ 20 then CHANNEL_UP
  else if ma_slope < 0 ∧ adx ≥ 20 then CHANNEL_DOWN
  else if |ma_slope| > 0 ∧ adx < 20 then CHANNEL_TRANSITION
  else CHANNEL_SIDEWAYS

/-- Model of `BollingerBandStrategy.analyze`.  The `ta` Bollinger bands are
`SMA(w) ± k·std(ddof=0)`; `wband = (upper-lower)/middle·100`,
`pband = (price-lower)/(upper-lower)`.  `sqrtQ` models the float square
root inside the rolling standard deviation, `adx` the `_calc_adx` value.
Rational division gives `0` where pandas would give `inf`/`NaN` from a
zero denominator (the `NaN` case is mapped to `0` by the source too). -/
def bollinger_analyze (bb_period : ℕ) (bb_std : ℚ) (sqrtQ : ℚ → ℚ)
    (adx : ℚ) (df : List Bar) (lookback : ℕ) : AnalyzeResult :=
  if df.length < bb_period + 10 then
    .error (insufficientMsg (bb_period + 10) df.length)
  else
    let cl := closes df
    let wins := windowsOf bb_period cl
    let mavgV := wins.map meanQ
    let stdV := wins.map (fun win => sqrtQ (varQ win))
    let hbandV := (mavgV.zip stdV).map (fun p => p.1 + bb_std * p.2)
    let lbandV := (mavgV.zip stdV).map (fun p => p.1 - bb_std * p.2)
    let wbandV := (mavgV.zip stdV).map
      (fun p => (p.1 + bb_std * p.2 - (p.1 - bb_std * p.2)) / p.1 * 100)
    let upper := lastD hbandV
    let lower := lastD lbandV
    let middle := lastD mavgV
    let bandwidth := lastD wbandV
    let current_price := lastD cl
    let pct_b := (current_price - lower) / (upper - lower)
    let ma_vals := lastN lookback mavgV
    let ma_slope := if ma_vals.length ≥ 10 then linregSlope ma_vals else 0
    let bw_series := lastN lookback wbandV
    let bw_median := if bw_series.length > 0 then medianQ bw_series else bandwidth
    let bw_is_narrow := decide (bandwidth < bw_median * (7/10))
    let cht := bollingerChannelType bw_is_narrow ma_slope adx
    .ok {
      strategy_name := "布林带"
      channel_type := cht
      current_price := roundDec 2 current_price
      upper_band := roundDec 2 upper
      lower_band := roundDec 2 lower
      center := roundDec 2 middle
      position_pct := calc_position_pct current_price upper lower
      sma_cross := if current_price > middle then "中轨上方" else "中轨下方"
      details := [
        ("bandwidth", .num (roundDec 4 bandwidth)),
        ("pct_b", .num (roundDec 4 pct_b)),
        ("ma_slope", .num (roundDec 4 ma_slope)),
        ("adx", .num adx),
        ("bw_vs_median", .str (if bw_is_narrow then "收窄" else "正常/扩张"))] }

-- ============================================================
-- Strategy 3: DonchianChannelStrategy.analyze
-- ============================================================

/-- The classification chain of `DonchianChannelStrategy.analyze`
(lines 325-334); `(upper_slope > 0) != (lower_slope > 0)` is boolean
inequality of the two sign tests. -/
def donchianChannelType (upper_slope lower_slope adx : ℚ) : String :=
  if upper_slope > 0 ∧ lower_slope > 0 ∧ adx ≥ 20 then CHANNEL_UP
  else if upper_slope < 0 ∧ lower_slope < 0 ∧ adx ≥ 20 then CHANNEL_DOWN
  else if adx < 15 then CHANNEL_SIDEWAYS
  else if decide (upper_slope > 0) ≠ decide (lower_slope > 0) then
    CHANNEL_TRANSITION
  else CHANNEL_SIDEWAYS

/-- Model of `DonchianChannelStrategy.analyze`.  The `ta` Donchian bands are the
rolling max of highs / min of lows; `mband` their midpoint and
`wband = (upper-lower)/mband·100`.  `adx` abstracts `_calc_adx`. -/
def donchian_analyze (dc_period : ℕ) (adx : ℚ) (df : List Bar)
    (lookback : ℕ) : AnalyzeResult :=
  if df.length < dc_period + 10 then
    .error (insufficientMsg (dc_period + 10) df.length)
  else
    let hbandV := (windowsOf dc_period (highs df)).map maxQ
    let lbandV := (windowsOf dc_period (lows df)).map minQ
    let mbandV := (hbandV.zip lbandV).map (fun p => (p.1 - p.2) / 2 + p.2)
    let wbandV := (hbandV.zip lbandV).map
      (fun p => (p.1 - p.2) / ((p.1 - p.2) / 2 + p.2) * 100)
    let upper := lastD hbandV
    let lower := lastD lbandV
    let middle := lastD mbandV
    let width := lastD wbandV
    let current_price := lastD (closes df)
    let upper_series := lastN lookback hbandV
    let lower_series := lastN lookback lbandV
    let upper_slope := if upper_series.length ≥ 10 then linregSlope upper_series else 0
    let lower_slope := if lower_series.length ≥ 10 then linregSlope lower_series else 0
    let cht := donchianChannelType upper_slope lower_slope adx
    let dist_to_upper :=
      if upper - lower > 0 then (upper - current_price) / (upper - lower) else 1/2
    let proximity :=
      if dist_to_upper < 1/10 then "接近上轨（可能突破）"
      else if dist_to_upper > 9/10 then "接近下轨（可能跌破）"
      else "通道内部"
    .ok {
      strategy_name := "唐奇安"
      channel_type := cht
      current_price := roundDec 2 current_price
      upper_band := roundDec 2 upper
      lower_band := roundDec 2 lower
      center := roundDec 2 middle
      position_pct := calc_position_pct current_price upper lower
      sma_cross := proximity
      details := [
        ("upper_slope", .num (roundDec 4 upper_slope)),
        ("lower_slope", .num (roundDec 4 lower_slope)),
        ("channel_width", .num (roundDec 4 width)),
        ("adx", .num adx),
        ("dc_period", .nat dc_period)] }

-- ============================================================
-- Strategy 4: TrendlineStrategy
-- ============================================================

/-- Model of `TrendlineStrategy._find_pivots`: for every interior index
`i ∈ [window, len - window)`, keep `(i, values[i])` when `values[i]` is `≥`
the maximum of the `window` bars on each side (`mode="high"`), resp. `≤`
the minimum on each side (`mode="low"`). -/
def find_pivots (values : List ℚ) (window : ℕ) (isHigh : Bool) :
    List (ℕ × ℚ) :=
  (List.range' window (values.length - window - window)).filterMap fun i =>
    let left := (values.drop (i - window)).take window
    let right := (values.drop (i + 1)).take window
    let v := values.getD i 0
    if isHigh then
      if v ≥ maxQ left ∧ v ≥ maxQ right then some (i, v) else none
    else
      if v ≤ minQ left ∧ v ≤ minQ right then some (i, v) else none

/-- Sum of x-coordinates of a point list (`np.polyfit` over pivot points). -/
def psumX (pts : List (ℕ × ℚ)) : ℚ := (pts.map (fun p => (p.1 : ℚ))).sum

/-- Sum of squared x-coordinates. -/
def psumXX (pts : List (ℕ × ℚ)) : ℚ := (pts.map (fun p => (p.1 : ℚ) ^ 2)).sum

/-- Sum of x·y products. -/
def psumXY (pts : List (ℕ × ℚ)) : ℚ := (pts.map (fun p => (p.1 : ℚ) * p.2)).sum

/-- Sum of y-coordinates. -/
def psumY (pts : List (ℕ × ℚ)) : ℚ := (pts.map Prod.snd).sum

/-- Least-squares slope through explicit points. -/
def fitSlopeP (pts : List (ℕ × ℚ)) : ℚ :=
  (pts.length * psumXY pts - psumX pts * psumY pts) /
    (pts.length * psumXX pts - (psumX pts) ^ 2)

/-- Least-squares intercept through explicit points. -/
def fitInterceptP (pts : List (ℕ × ℚ)) : ℚ :=
  (psumY pts - fitSlopeP pts * psumX pts) / pts.length

/-- The classification chain of `TrendlineStrategy.analyze`
(lines 437-449). -/
def trendlineChannelType (h_slope l_slope adx : ℚ) : String :=
  if h_slope > 0 ∧ l_slope > 0 ∧ adx ≥ 20 then CHANNEL_UP
  else if h_slope < 0 ∧ l_slope < 0 ∧ adx ≥ 20 then CHANNEL_DOWN
  else if (h_slope > 0 ∧ l_slope > 0) ∨ (h_slope < 0 ∧ l_slope < 0) then
    CHANNEL_TRANSITION
  else CHANNEL_SIDEWAYS

/-- The pattern label of `TrendlineStrategy.analyze` (lines 452-461). -/
def trendlinePattern (h_slope l_slope : ℚ) : String :=
  if h_slope > 0 ∧ l_slope > 0 then "上升通道"
  else if h_slope < 0 ∧ l_slope < 0 then "下降通道"
  else if h_slope < 0 ∧ l_slope > 0 then "收敛三角形"
  else if h_slope > 0 ∧ l_slope < 0 then "扩张形态"
  else "不明确"

/-- Model of `TrendlineStrategy.analyze`.  `adx` abstracts `_calc_adx`. -/
def trendline_analyze (pivot_window : ℕ) (adx : ℚ) (df : List Bar)
    (lookback : ℕ) : AnalyzeResult :=
  if df.length < lookback then .error (insufficientMsg lookback df.length)
  else
    let data := lastN lookback df
    let high := highs data
    let low := lows data
    let close := closes data
    let hp := find_pivots high pivot_window true
    let lp := find_pivots low pivot_window false
    let current_price := lastD close
    if hp.length < 3 ∨ lp.length < 3 then
      .ok {
        strategy_name := "高低点趋势线"
        channel_type := CHANNEL_SIDEWAYS
        current_price := roundDec 2 current_price
        upper_band := roundDec 2 (maxQ high)
        lower_band := roundDec 2 (minQ low)
        center := roundDec 2 (meanQ close)
        position_pct := 50
        sma_cross := "极值点不足"
        details := [
          ("high_pivots", .nat hp.length),
          ("low_pivots", .nat lp.length),
          ("note", .str "局部极值点不足，无法拟合趋势线")] }
    else
      let h_slope := fitSlopeP hp
      let upper_at_end := fitSlopeP hp * ((data.length : ℚ) - 1) + fitInterceptP hp
      let l_slope := fitSlopeP lp
      let lower_at_end := fitSlopeP lp * ((data.length : ℚ) - 1) + fitInterceptP lp
      let center := (upper_at_end + lower_at_end) / 2
      let cht := trendlineChannelType h_slope l_slope adx
      let pattern := trendlinePattern h_slope l_slope
      .ok {
        strategy_name := "高低点趋势线"
        channel_type := cht
        current_price := roundDec 2 current_price
        upper_band := roundDec 2 upper_at_end
        lower_band := roundDec 2 lower_at_end
        center := roundDec 2 center
        position_pct := calc_position_pct current_price upper_at_end lower_at_end
        sma_cross := pattern
        details := [
          ("high_slope", .num (roundDec 4 h_slope)),
          ("low_slope", .num (roundDec 4 l_slope)),
          ("high_pivots", .nat hp.length),
          ("low_pivots", .nat lp.length),
          ("pattern", .str pattern),
          ("adx", .num adx)] }

-- ============================================================
-- Strategy registry (`strategies.py` lines 511-539)
-- ============================================================

/-- The four strategy classes. -/
inductive SKind where
  | regression
  | bollinger
  | donchian
  | trendline
  deriving Repr, DecidableEq

/-- Model of `ALL_STRATEGIES`: identifier → class.  The spec refers to these as
regression / volatility-band / range / pivot-trendline respectively. -/
def ALL_STRATEGIES : List (String × SKind) :=
  [("regression", .regression), ("bollinger", .bollinger),
   ("donchian", .donchian), ("trendline", .trendline)]

def DEFAULT_STRATEGY_NAMES : List String :=
  ["regression", "bollinger", "donchian", "trendline"]

/-- Keyword parameters each `__init__` declares. -/
def acceptedParams : SKind → List String
  | .regression => ["adx_threshold", "r2_threshold"]
  | .bollinger => ["bb_period", "bb_std"]
  | .donchian => ["dc_period"]
  | .trendline => ["pivot_window"]

/-- Model of `ALL_STRATEGIES[n](**kwargs)`: Python raises `TypeError` when a keyword
is not declared by the constructor.  `kwargs` is the set of keyword names
passed. -/
def constructStrategy (k : SKind) (kwargs : List String) :
    Except String SKind :=
  if kwargs.all (fun p => (acceptedParams k).contains p) then .ok k
  else .error "TypeError: unexpected keyword argument"

/-- Python `str.lower()` (over the character data). -/
def strLower (s : String) : String := ⟨s.data.map Char.toLower⟩

/-- Python `str.strip()`: drop leading and trailing whitespace. -/
def strTrim (s : String) : String :=
  ⟨((s.data.dropWhile Char.isWhitespace).reverse.dropWhile
      Char.isWhitespace).reverse⟩

/-- Model of `get_strategies(names, **kwargs)`: `names or DEFAULT_STRATEGY_NAMES`
(so `None` and `[]` both select all four), each name stripped and
lower-cased, unknown names skipped (a printed warning, dropped here), and
every selected constructor called with the same `kwargs`.  An `.error`
models the uncaught `TypeError` escaping the loop. -/
def get_strategies (names : Option (List String)) (kwargs : List String) :
    Except String (List SKind) :=
  let ns := match names with
    | Option.none => DEFAULT_STRATEGY_NAMES
    | some l => if l.isEmpty then DEFAULT_STRATEGY_NAMES else l
  ns.foldlM (fun acc n =>
    match (ALL_STRATEGIES.find? (fun p =>
        p.1 == strLower (strTrim n))).map Prod.snd with
    | some k => (constructStrategy k kwargs).map (fun s => acc ++ [s])
    | Option.none => .ok acc) []

-- ============================================================
-- Time-Frame Consensus (`channel_analyzer.py` lines 249-270)
-- ============================================================

/-- The label family of `_consensus`. -/
inductive ConsensusKind where
  | noValid
  | unanimousBull
  | unanimousBear
  | leanBull
  | leanBear
  | divergent
  deriving Repr, DecidableEq

/-- The dict returned by `_consensus`. -/
structure Verdict where
  label : String
  up : ℕ
  down : ℕ
  total : ℕ
  deriving Repr, DecidableEq

/-- Count of valid (non-error) strategy results. -/
def totalValid (rs : List AnalyzeResult) : ℕ :=
  (rs.filter AnalyzeResult.isOk).length

/-- Count of valid results classified `CHANNEL_UP`. -/
def countUp (rs : List AnalyzeResult) : ℕ :=
  (rs.filter AnalyzeResult.isOk).countP
    (fun r => r.channelType? == some CHANNEL_UP)

/-- Count of valid results classified `CHANNEL_DOWN`. -/
def countDown (rs : List AnalyzeResult) : ℕ :=
  (rs.filter AnalyzeResult.isOk).countP
    (fun r => r.channelType? == some CHANNEL_DOWN)

/-- The `if/elif` label chain of `_consensus` (lines 259-268);
`up >= total / 2` (exact float halves) is `2·up ≥ total`. -/
def consensusKind (up down total : ℕ) : ConsensusKind :=
  if up = total then .unanimousBull
  else if down = total then .unanimousBear
  else if up > down ∧ 2 * up ≥ total then .leanBull
  else if down > up ∧ 2 * down ≥ total then .leanBear
  else .divergent

/-- The f-string label for each branch of `_consensus`. -/
def renderConsensusLabel (k : ConsensusKind) (up down total : ℕ) : String :=
  match k with
  | .noValid => "❓ 无有效数据"
  | .unanimousBull => "📈 全部看涨 (" ++ toString up ++ "/" ++ toString total ++ ")"
  | .unanimousBear => "📉 全部看跌 (" ++ toString down ++ "/" ++ toString total ++ ")"
  | .leanBull => "📈 偏多 (" ++ toString up ++ "/" ++ toString total ++ " 看涨)"
  | .leanBear => "📉 偏空 (" ++ toString down ++ "/" ++ toString total ++ " 看跌)"
  | .divergent => "🔄 分歧 (" ++ toString up ++ "涨/" ++ toString down ++ "跌/"
      ++ toString (total - up - down) ++ "其他)"

/-- Model of `ChannelAnalyzer._consensus`. -/
def consensus (rs : List AnalyzeResult) : Verdict :=
  if rs.filter AnalyzeResult.isOk = [] then
    { label := "❓ 无有效数据", up := 0, down := 0, total := 0 }
  else
    { label := renderConsensusLabel
        (consensusKind (countUp rs) (countDown rs) (totalValid rs))
        (countUp rs) (countDown rs) (totalValid rs)
      up := countUp rs
      down := countDown rs
      total := totalValid rs }

-- ============================================================
-- Multi-Time-Frame Aggregator (`channel_analyzer.py` lines 299-347)
-- ============================================================

/-- One entry of `report["timeframes"]` as read by `_generate_summary`:
its name, an optional time-frame-level error, and its consensus verdict. -/
structure TFResult where
  name : String
  error : Option String
  consensus : Verdict
  deriving Repr, DecidableEq

/-- The dict returned by `_generate_summary`. -/
structure Summary where
  conclusion : String
  details : List String
  deriving Repr, DecidableEq

/-- The valid (non-error) time-frames. -/
def validTfs (tfs : List TFResult) : List TFResult :=
  tfs.filter (fun tf => tf.error.isNone)

/-- A time-frame leans bullish: its verdict counts satisfy `up > down`. -/
def leansBull (tf : TFResult) : Bool :=
  decide (tf.consensus.down < tf.consensus.up)

/-- A time-frame leans bearish: `down > up`. -/
def leansBear (tf : TFResult) : Bool :=
  decide (tf.consensus.up < tf.consensus.down)

/-- The conclusion family of `_generate_summary`. -/
inductive OverallKind where
  | strongBull
  | strongBear
  | overallBull
  | overallBear
  | divergent
  deriving Repr, DecidableEq

/-- The `if/elif` conclusion chain (lines 318-327). -/
def overallKind (nUp nDown total : ℕ) : OverallKind :=
  if nUp = total then .strongBull
  else if nDown = total then .strongBear
  else if nUp > nDown then .overallBull
  else if nDown > nUp then .overallBear
  else .divergent

/-- The conclusion f-string for each branch. -/
def renderConclusion (k : OverallKind) (nUp nDown total : ℕ) : String :=
  match k with
  | .strongBull => "📈 全级别偏多 — 强烈多头趋势"
  | .strongBear => "📉 全级别偏空 — 强烈空头趋势"
  | .overallBull => "📈 整体偏多（" ++ toString nUp ++ "/" ++ toString total
      ++ " 级别看涨）"
  | .overallBear => "📉 整体偏空（" ++ toString nDown ++ "/" ++ toString total
      ++ " 级别看跌）"
  | .divergent => "🔄 多空分歧 — 各级别方向不一致"

/-- Long-horizon time-frame names (lines 335). -/
def isLongName (n : String) : Bool := n == "日线" || n == "周线"

/-- Short-horizon time-frame names (line 336). -/
def isShortName (n : String) : Bool := n == "1H" || n == "4H"

/-- Model of `long_bullish` (line 337). -/
def longBullish (valid : List TFResult) : Bool :=
  (valid.filter (fun tf => isLongName tf.name)).any leansBull

/-- Model of `short_bearish` (line 338). -/
def shortBearish (valid : List TFResult) : Bool :=
  (valid.filter (fun tf => isShortName tf.name)).any leansBear

/-- Model of `long_bearish` (line 339). -/
def longBearish (valid : List TFResult) : Bool :=
  (valid.filter (fun tf => isLongName tf.name)).any leansBear

/-- Model of `short_bullish` (line 340). -/
def shortBullish (valid : List TFResult) : Bool :=
  (valid.filter (fun tf => isShortName tf.name)).any leansBull

/-- The cross-horizon conflict warnings appended to the details
(lines 342-345): an `if/elif`, so at most one warning is emitted. -/
def conflictWarnings (valid : List TFResult) : List String :=
  if longBullish valid ∧ shortBearish valid then ["⚠️ 大级别看多但小级别回调中"]
  else if longBearish valid ∧ shortBullish valid then ["⚠️ 大级别看空但小级别反弹中"]
  else []

/-- Count of valid time-frames leaning bullish (`consensus_up`). -/
def tfCountBull (tfs : List TFResult) : ℕ := (validTfs tfs).countP leansBull

/-- Count of valid time-frames leaning bearish (`consensus_down`). -/
def tfCountBear (tfs : List TFResult) : ℕ := (validTfs tfs).countP leansBear

/-- Model of `ChannelAnalyzer._generate_summary`. -/
def generate_summary (tfs : List TFResult) : Summary :=
  if validTfs tfs = [] then
    { conclusion := "数据不足，无法综合判断", details := [] }
  else
    { conclusion := renderConclusion
        (overallKind (tfCountBull tfs) (tfCountBear tfs) (validTfs tfs).length)
        (tfCountBull tfs) (tfCountBear tfs) (validTfs tfs).length
      details := (validTfs tfs).map
          (fun tf => tf.name ++ ": " ++ tf.consensus.label)
        ++ conflictWarnings (validTfs tfs) }

-- ============================================================
-- Resampling (`channel_analyzer.py` lines 272-297, numeric core)
-- ============================================================

/-- The `volume` column. -/
def volumes (df : List Bar) : List ℚ := df.map Bar.volume

/-- Group consecutive bars whose `key` agrees (pandas `resample` buckets:
timestamps are non-decreasing in a bar series, so equal keys are
consecutive).  Every produced group is nonempty. -/
def chunkBy (key : Bar → ℕ) : List Bar → List (List Bar)
  | [] => []
  | [b] => [[b]]
  | b :: c :: rest =>
    match chunkBy key (c :: rest) with
    | [] => [[b]]
    | g :: gs => if key b = key c then (b :: g) :: gs else [b] :: g :: gs

/-- Aggregation of one bucket: `open=first, high=max, low=min, close=last,
volume=sum`; the bucket label is the bucket start time. -/
def aggBar (delta : ℕ) : List Bar → Bar
  | [] => { time := 0, op := 0, high := 0, low := 0, close := 0, volume := 0 }
  | b :: t =>
    { time := b.time / delta * delta
      op := b.op
      high := maxQ (highs (b :: t))
      low := minQ (lows (b :: t))
      close := lastD (closes (b :: t))
      volume := (volumes (b :: t)).sum }

/-- Model of `ChannelAnalyzer._resample`: bucket bars by `time / delta` and
aggregate each bucket.  Empty buckets never appear (each group is built
from present bars), matching the `.dropna()` that removes all-`NaN`
bucket rows. -/
def resample (delta : ℕ) (df : List Bar) : List Bar :=
  (chunkBy (fun b => b.time / delta) df).map (aggBar delta)

-- ============================================================
-- Auxiliary definitions: indexed sums, synthetic series and
-- concrete inputs used by the verification theorems
-- ============================================================

/-- An all-defaults Up result used by concrete witnesses. -/
def okUpResult (s : String) : AnalyzeResult :=
  .ok { strategy_name := s
        channel_type := CHANNEL_UP
        current_price := 1
        upper_band := 2
        lower_band := 0
        center := 1
        position_pct := 50
        sma_cross := ""
        details := [] }

/-- An all-bullish valid time-frame for concrete witnesses. -/
def tfBull (n : String) : TFResult :=
  { name := n
    error := Option.none
    consensus := { label := "x", up := 3, down := 0, total := 3 } }

/-- A time-frame verdict leaning bullish under a given name. -/
def tfUpNamed (n : String) : TFResult :=
  { name := n
    error := Option.none
    consensus := { label := "x", up := 1, down := 0, total := 1 } }

/-- A time-frame verdict leaning bearish under a given name. -/
def tfDownNamed (n : String) : TFResult :=
  { name := n
    error := Option.none
    consensus := { label := "x", up := 0, down := 1, total := 1 } }

/-- A report in which both cross-horizon conflict conditions hold:
daily leans bullish, weekly bearish, 1H bearish, 4H bullish. -/
def bothConflictTfs : List TFResult :=
  [tfUpNamed "日线", tfDownNamed "周线", tfDownNamed "1H", tfUpNamed "4H"]

/-- Indexed sum: `isum f k [x₀, x₁, …] = f k x₀ + f (k+1) x₁ + …`. -/
def isum (f : ℕ → ℚ → ℚ) : ℕ → List ℚ → ℚ
  | _, [] => 0
  | k, x :: t => f k x + isum f (k + 1) t

/-- A synthetic perfectly linear close series: `a, a+b, a+2b, …`. -/
def arithSeq (a b : ℚ) (n : ℕ) : List ℚ :=
  (List.range n).map (fun i : ℕ => a + b * (i : ℚ))

/-- Model of `0 + 1 + … + (n-1)` as a rational. -/
def qS1 : ℕ → ℚ
  | 0 => 0
  | n + 1 => qS1 n + n

/-- Model of `0² + 1² + … + (n-1)²` as a rational. -/
def qS2 : ℕ → ℚ
  | 0 => 0
  | n + 1 => qS2 n + (n : ℚ) ^ 2

/-- A concrete strictly ascending perfectly linear bar series. -/
def dfLin : List Bar :=
  (List.range 12).map (fun i : ℕ =>
    { time := i, op := 0, high := 0, low := 0, close := 1 + (i : ℚ),
      volume := 0 })

/-- A concrete strictly increasing 12-bar series with integral prices. -/
def dfTr : List Bar :=
  (List.range 12).map (fun i : ℕ =>
    { time := i, op := (i : ℚ), high := (i : ℚ), low := (i : ℚ),
      close := (i : ℚ), volume := 1 })

/-- The `sma_cross` field of a non-error result. -/
def AnalyzeResult.smaCross? : AnalyzeResult → Option String
  | .error _ => none
  | .ok r => some r.sma_cross

/-- A tiny strictly increasing 3-bar series. -/
def dfC8 : List Bar :=
  [⟨0, 1, 1, 1, 1, 1⟩, ⟨1, 2, 2, 2, 2, 1⟩, ⟨2, 3, 3, 3, 3, 1⟩]

/-- Resolution of one requested name (stripped, lower-cased) to a
strategy class, as in the `get_strategies` loop. -/
def resolveName (n : String) : Option SKind :=
  (ALL_STRATEGIES.find? (fun p => p.1 == strLower (strTrim n))).map Prod.snd

-- ============================================================
-- Helper lemmas
-- ============================================================

theorem roundHalfEven_nonneg (q : ℚ) (h : 0 ≤ q) : 0 ≤ roundHalfEven q := by
  have hf : (0 : ℤ) ≤ ⌊q⌋ := Int.le_floor.mpr (by simpa using h)
  simp only [roundHalfEven]
  split_ifs <;> omega

theorem roundHalfEven_le (q : ℚ) (B : ℤ) (h : q ≤ B) : roundHalfEven q ≤ B := by
  have hf : ⌊q⌋ ≤ B := by
    have := Int.floor_le_floor h
    simpa using this
  have hlt : (1 : ℚ) / 2 ≤ q - ⌊q⌋ → ⌊q⌋ < B := by
    intro hr
    have hq : (⌊q⌋ : ℚ) < B := by linarith
    exact_mod_cast hq
  simp only [roundHalfEven]
  split_ifs with h1 h2 h3
  · exact hf
  · have := hlt (by linarith)
    omega
  · exact hf
  · have := hlt (by linarith)
    omega

theorem roundDec_nonneg (d : ℕ) (q : ℚ) (h : 0 ≤ q) : 0 ≤ roundDec d q := by
  unfold roundDec
  apply div_nonneg _ (by positivity)
  exact_mod_cast roundHalfEven_nonneg _ (by positivity)

theorem roundDec_le (d : ℕ) (q : ℚ) (B : ℤ) (h : q ≤ B) : roundDec d q ≤ B := by
  unfold roundDec
  rw [div_le_iff₀ (by positivity)]
  have h2 : q * 10 ^ d ≤ ((B * 10 ^ d : ℤ) : ℚ) := by
    push_cast
    exact mul_le_mul_of_nonneg_right h (by positivity)
  calc (roundHalfEven (q * 10 ^ d) : ℚ)
      ≤ ((B * 10 ^ d : ℤ) : ℚ) := by exact_mod_cast roundHalfEven_le _ _ h2
    _ = B * 10 ^ d := by push_cast; ring

theorem countP_disjoint_le {α : Type} (l : List α) (p q : α → Bool)
    (h : ∀ a, ¬(p a = true ∧ q a = true)) :
    l.countP p + l.countP q ≤ l.length := by
  induction l with
  | nil => simp
  | cons a t ih =>
    simp only [List.countP_cons, List.length_cons]
    have := h a
    by_cases hp : p a = true <;> by_cases hq : q a = true <;>
      simp [hp, hq] at * <;> omega

-- ============================================================
-- C1
-- ============================================================

/-- C1: for every price/upper/lower, the shared position computation
`_calc_position_pct` returns a value in `[0, 100]`, and returns exactly
`50.0` whenever `upper ≤ lower` (zero or negative band width). -/
theorem calc_position_pct_spec (price upper lower : ℚ) :
    0 ≤ calc_position_pct price upper lower ∧
    calc_position_pct price upper lower ≤ 100 ∧
    (upper ≤ lower → calc_position_pct price upper lower = 50) := by
  unfold calc_position_pct
  dsimp only
  split_ifs with hw
  · refine ⟨roundDec_nonneg _ _ (le_max_left _ _), ?_, fun hle => absurd hw (by simp; linarith)⟩
    have := roundDec_le 1 (max 0 (min 100 ((price - lower) / (upper - lower) * 100))) 100
      (max_le (by norm_num) (min_le_left _ _))
    exact_mod_cast this
  · exact ⟨by norm_num, by norm_num, fun _ => rfl⟩

/-- C1 witness: concrete degenerate band and concrete bounds. -/
theorem calc_position_pct_spec_witness :
    calc_position_pct 5 3 3 = 50 ∧ 0 ≤ calc_position_pct 7 10 0 ∧
      calc_position_pct 7 10 0 ≤ 100 :=
  ⟨(calc_position_pct_spec 5 3 3).2.2 (by norm_num),
   (calc_position_pct_spec 7 10 0).1, (calc_position_pct_spec 7 10 0).2.1⟩

-- ============================================================
-- C2
-- ============================================================

/-- C2: every strategy variant, given a bar series shorter than its stated
minimum (`max(lookback, sma_long+10)` for regression, `bb_period+10` for
the volatility-band variant, `dc_period+10` for the range variant,
`lookback` for the pivot-trendline variant), returns exactly the error
variant — a result carrying only the message, never numeric channel
fields — and, being a total function, never raises. -/
theorem analyze_short_series_error
    (adx_t r2_t bb_std : ℚ) (sqrtQ : ℚ → ℚ) (adx : ℚ) (df : List Bar)
    (lookback sma_short sma_long bb_period dc_period pivot_window : ℕ) :
    (df.length < max lookback (sma_long + 10) →
      linreg_analyze adx_t r2_t sqrtQ adx df lookback sma_short sma_long
        = .error (insufficientMsg (max lookback (sma_long + 10)) df.length)) ∧
    (df.length < bb_period + 10 →
      bollinger_analyze bb_period bb_std sqrtQ adx df lookback
        = .error (insufficientMsg (bb_period + 10) df.length)) ∧
    (df.length < dc_period + 10 →
      donchian_analyze dc_period adx df lookback
        = .error (insufficientMsg (dc_period + 10) df.length)) ∧
    (df.length < lookback →
      trendline_analyze pivot_window adx df lookback
        = .error (insufficientMsg lookback df.length)) := by
  refine ⟨fun h => ?_, fun h => ?_, fun h => ?_, fun h => ?_⟩
  · simp [linreg_analyze, h]
  · simp [bollinger_analyze, h]
  · simp [donchian_analyze, h]
  · simp [trendline_analyze, h]

/-- C2 witness: all four variants on the empty bar series with the
default parameters. -/
theorem analyze_short_series_error_witness :
    linreg_analyze 25 (1/2) id 0 [] 60 20 60
      = .error (insufficientMsg (max 60 (60 + 10)) 0) ∧
    bollinger_analyze 20 2 id 0 [] 60
      = .error (insufficientMsg (20 + 10) 0) ∧
    donchian_analyze 20 0 [] 60 = .error (insufficientMsg (20 + 10) 0) ∧
    trendline_analyze 5 0 [] 60 = .error (insufficientMsg 60 0) := by
  obtain ⟨a, b, c, d⟩ :=
    analyze_short_series_error 25 (1/2) 2 id 0 [] 60 20 60 20 20 5
  exact ⟨a (by norm_num), b (by norm_num), c (by norm_num), d (by norm_num)⟩

-- ============================================================
-- C3
-- ============================================================

/-- C3: the Time-Frame Consensus.  With `up`/`down` the counts of
Up/Down results among the non-error results and `total` their number:
an empty valid set yields the no-valid-data verdict with zero counts;
otherwise the verdict carries exactly these counts and its label kind is
unanimous-bullish iff `up = total`, unanimous-bearish iff `down = total`,
leaning-bullish iff `up > down ∧ up ≥ total/2` and not unanimous,
leaning-bearish symmetrically, else divergent (whose label reports
`total - up - down` as other).  In particular all-Up input gives
`up = total`, `down = 0` and the unanimous-bullish label. -/
theorem consensus_spec (rs : List AnalyzeResult) :
    (rs.filter AnalyzeResult.isOk = [] →
      consensus rs = { label := "❓ 无有效数据", up := 0, down := 0, total := 0 }) ∧
    (rs.filter AnalyzeResult.isOk ≠ [] →
      (consensus rs).up = countUp rs ∧ (consensus rs).down = countDown rs ∧
      (consensus rs).total = totalValid rs ∧
      (consensus rs).label = renderConsensusLabel
        (consensusKind (countUp rs) (countDown rs) (totalValid rs))
        (countUp rs) (countDown rs) (totalValid rs) ∧
      (consensusKind (countUp rs) (countDown rs) (totalValid rs)
          = .unanimousBull ↔ countUp rs = totalValid rs) ∧
      (consensusKind (countUp rs) (countDown rs) (totalValid rs)
          = .unanimousBear ↔ countDown rs = totalValid rs) ∧
      (consensusKind (countUp rs) (countDown rs) (totalValid rs) = .leanBull ↔
        countUp rs ≠ totalValid rs ∧ countUp rs > countDown rs ∧
          2 * countUp rs ≥ totalValid rs) ∧
      (consensusKind (countUp rs) (countDown rs) (totalValid rs) = .leanBear ↔
        countDown rs ≠ totalValid rs ∧ countDown rs > countUp rs ∧
          2 * countDown rs ≥ totalValid rs) ∧
      (consensusKind (countUp rs) (countDown rs) (totalValid rs) = .divergent ↔
        countUp rs ≠ totalValid rs ∧ countDown rs ≠ totalValid rs ∧
          ¬(countUp rs > countDown rs ∧ 2 * countUp rs ≥ totalValid rs) ∧
          ¬(countDown rs > countUp rs ∧ 2 * countDown rs ≥ totalValid rs))) ∧
    ((∀ r ∈ rs, r.channelType? = some CHANNEL_UP) → rs ≠ [] →
      countUp rs = totalValid rs ∧ countDown rs = 0 ∧
      (consensus rs).up = totalValid rs ∧ (consensus rs).down = 0 ∧
      (consensus rs).label = renderConsensusLabel .unanimousBull
        (totalValid rs) 0 (totalValid rs)) := by
  have h1 : countUp rs ≤ totalValid rs := List.countP_le_length _
  have h2 : countDown rs ≤ totalValid rs := List.countP_le_length _
  have h3 : countUp rs + countDown rs ≤ totalValid rs := by
    apply countP_disjoint_le
    intro a
    rintro ⟨hu, hd⟩
    rw [beq_iff_eq] at hu hd
    rw [hu] at hd
    have : CHANNEL_UP = CHANNEL_DOWN := by injection hd
    exact absurd this (by decide)
  refine ⟨fun h => by simp [consensus, h], fun h => ?_, fun hall hne => ?_⟩
  · have hTot : 1 ≤ totalValid rs := List.length_pos.mpr h
    refine ⟨by simp [consensus, h], by simp [consensus, h], by simp [consensus, h],
      by simp [consensus, h], ?_, ?_, ?_, ?_, ?_⟩ <;>
      · unfold consensusKind
        split_ifs <;> simp_all <;> omega
  · have hfilter : rs.filter AnalyzeResult.isOk = rs := by
      rw [List.filter_eq_self]
      intro a ha
      have := hall a ha
      cases a with
      | error m => simp [AnalyzeResult.channelType?] at this
      | ok r => rfl
    have hup : countUp rs = totalValid rs := by
      unfold countUp totalValid
      rw [List.countP_eq_length]
      intro a ha
      rw [hfilter] at ha
      rw [beq_iff_eq]
      exact hall a ha
    have hdown : countDown rs = 0 := by
      unfold countDown
      rw [List.countP_eq_zero]
      intro a ha
      rw [hfilter] at ha
      rw [beq_iff_eq, hall a ha]
      intro hcon
      have : CHANNEL_UP = CHANNEL_DOWN := by injection hcon
      exact absurd this (by decide)
    have hne' : rs.filter AnalyzeResult.isOk ≠ [] := by
      rw [hfilter]
      exact hne
    refine ⟨hup, hdown, ?_, ?_, ?_⟩
    · simp [consensus, hne', hup]
    · simp [consensus, hne', hdown]
    · have hkind2 : consensusKind (totalValid rs) 0 (totalValid rs)
          = .unanimousBull := by
        simp [consensusKind]
      simp [consensus, hne', hup, hdown, hkind2]

/-- C3 witness: the empty list and a concrete all-Up list. -/
theorem consensus_spec_witness :
    consensus [] = { label := "❓ 无有效数据", up := 0, down := 0, total := 0 } ∧
    (consensus [okUpResult "s", okUpResult "t"]).up = 2 := by
  constructor
  · exact (consensus_spec []).1 rfl
  · have := ((consensus_spec [okUpResult "s", okUpResult "t"]).2.2
      (by decide) (by decide)).2.2.1
    rw [this]
    decide

-- ============================================================
-- C4
-- ============================================================

/-- C4: the Multi-Time-Frame Aggregator.  Over the non-error time-frames,
with `nUp`/`nDown` the counts of time-frames leaning bullish/bearish
(verdict counts `up > down`, resp. `down > up`, not labels): the
conclusion kind is strong-bullish iff every valid time-frame leans
bullish, strong-bearish iff every one leans bearish, overall-bullish iff
a strict plurality (but not all) leans bullish, overall-bearish
symmetrically, else divergent.  For an all-bullish valid set the
conclusion is the strong-bullish string and the details carry no conflict
warning (they are exactly the per-time-frame lines). -/
theorem summary_conclusion_spec (tfs : List TFResult) :
    (validTfs tfs ≠ [] →
      (generate_summary tfs).conclusion = renderConclusion
        (overallKind (tfCountBull tfs) (tfCountBear tfs) (validTfs tfs).length)
        (tfCountBull tfs) (tfCountBear tfs) (validTfs tfs).length ∧
      (overallKind (tfCountBull tfs) (tfCountBear tfs) (validTfs tfs).length
          = .strongBull ↔ ∀ tf ∈ validTfs tfs, leansBull tf) ∧
      (overallKind (tfCountBull tfs) (tfCountBear tfs) (validTfs tfs).length
          = .strongBear ↔ ∀ tf ∈ validTfs tfs, leansBear tf) ∧
      (overallKind (tfCountBull tfs) (tfCountBear tfs) (validTfs tfs).length
          = .overallBull ↔ tfCountBull tfs > tfCountBear tfs ∧
            tfCountBull tfs ≠ (validTfs tfs).length) ∧
      (overallKind (tfCountBull tfs) (tfCountBear tfs) (validTfs tfs).length
          = .overallBear ↔ tfCountBear tfs > tfCountBull tfs ∧
            tfCountBear tfs ≠ (validTfs tfs).length) ∧
      (overallKind (tfCountBull tfs) (tfCountBear tfs) (validTfs tfs).length
          = .divergent ↔ tfCountBull tfs = tfCountBear tfs ∧
            tfCountBull tfs ≠ (validTfs tfs).length)) ∧
    (validTfs tfs ≠ [] → (∀ tf ∈ validTfs tfs, leansBull tf) →
      (generate_summary tfs).conclusion = "📈 全级别偏多 — 强烈多头趋势" ∧
      conflictWarnings (validTfs tfs) = [] ∧
      (generate_summary tfs).details = (validTfs tfs).map
        (fun tf => tf.name ++ ": " ++ tf.consensus.label)) := by
  have h1 : tfCountBull tfs ≤ (validTfs tfs).length := List.countP_le_length _
  have h2 : tfCountBear tfs ≤ (validTfs tfs).length := List.countP_le_length _
  have h3 : tfCountBull tfs + tfCountBear tfs ≤ (validTfs tfs).length := by
    apply countP_disjoint_le
    intro a
    rintro ⟨hu, hd⟩
    simp [leansBull, leansBear] at hu hd
    omega
  have hBullIff : tfCountBull tfs = (validTfs tfs).length ↔
      ∀ tf ∈ validTfs tfs, leansBull tf := by
    unfold tfCountBull
    exact List.countP_eq_length
  have hBearIff : tfCountBear tfs = (validTfs tfs).length ↔
      ∀ tf ∈ validTfs tfs, leansBear tf := by
    unfold tfCountBear
    exact List.countP_eq_length
  constructor
  · intro h
    have hTot : 1 ≤ (validTfs tfs).length := List.length_pos.mpr h
    refine ⟨by simp [generate_summary, h], ?_, ?_, ?_, ?_, ?_⟩ <;>
      rw [show (overallKind (tfCountBull tfs) (tfCountBear tfs)
        (validTfs tfs).length) = _ from rfl] <;>
      · rw [← hBullIff] at *
        rw [← hBearIff] at *
        unfold overallKind
        split_ifs <;> simp_all <;> omega
  · intro h hall
    have hTot : 1 ≤ (validTfs tfs).length := List.length_pos.mpr h
    have hUp : tfCountBull tfs = (validTfs tfs).length := hBullIff.mpr hall
    have hkind : overallKind (tfCountBull tfs) (tfCountBear tfs)
        (validTfs tfs).length = .strongBull := by
      unfold overallKind
      rw [if_pos hUp]
    have hnb : ∀ tf ∈ validTfs tfs, leansBear tf = false := by
      intro tf htf
      have := hall tf htf
      simp [leansBull] at this
      simp [leansBear]
      omega
    have hsb : shortBearish (validTfs tfs) = false := by
      unfold shortBearish
      rw [List.any_eq_false]
      intro tf htf
      simp [hnb tf (List.mem_of_mem_filter htf)]
    have hlb : longBearish (validTfs tfs) = false := by
      unfold longBearish
      rw [List.any_eq_false]
      intro tf htf
      simp [hnb tf (List.mem_of_mem_filter htf)]
    have hcw : conflictWarnings (validTfs tfs) = [] := by
      unfold conflictWarnings
      simp [hsb, hlb]
    refine ⟨?_, hcw, ?_⟩
    · simp [generate_summary, h, hkind, renderConclusion]
    · simp [generate_summary, h, hcw]

/-- C4 witness: four time-frames all leaning bullish. -/
theorem summary_conclusion_spec_witness :
    (generate_summary [tfBull "1H", tfBull "4H", tfBull "日线", tfBull "周线"]).conclusion
      = "📈 全级别偏多 — 强烈多头趋势" ∧
    conflictWarnings (validTfs [tfBull "1H", tfBull "4H", tfBull "日线", tfBull "周线"])
      = [] :=
  ⟨(((summary_conclusion_spec
      [tfBull "1H", tfBull "4H", tfBull "日线", tfBull "周线"]).2
      (by decide) (by decide)).1),
   (((summary_conclusion_spec
      [tfBull "1H", tfBull "4H", tfBull "日线", tfBull "周线"]).2
      (by decide) (by decide)).2.1)⟩

-- ============================================================
-- C5
-- ============================================================

/-- C5 counterexample: on `bothConflictTfs` the long-bearish/short-bullish
conflict condition holds, yet the summary details do not contain the
opposite-conflict warning — the source `elif` emits only the first
warning, refuting the claim that both warnings appear together. -/
theorem conflict_warning_cex :
    longBearish (validTfs bothConflictTfs) = true ∧
    shortBullish (validTfs bothConflictTfs) = true ∧
    longBullish (validTfs bothConflictTfs) = true ∧
    shortBearish (validTfs bothConflictTfs) = true ∧
    "⚠️ 大级别看空但小级别反弹中" ∉ (generate_summary bothConflictTfs).details := by
  decide

/-- C5 amended: the summary details are the per-time-frame lines followed
by the conflict warnings; the bullish-long/bearish-short warning appears
iff its condition holds, while the opposite warning appears iff its
condition holds AND the first one does not (the source chain is
`if/elif`, so at most one warning is ever emitted). -/
theorem conflict_warning_spec (tfs : List TFResult) :
    (validTfs tfs ≠ [] →
      (generate_summary tfs).details
        = (validTfs tfs).map (fun tf => tf.name ++ ": " ++ tf.consensus.label)
          ++ conflictWarnings (validTfs tfs)) ∧
    ("⚠️ 大级别看多但小级别回调中" ∈ conflictWarnings (validTfs tfs) ↔
      longBullish (validTfs tfs) = true ∧ shortBearish (validTfs tfs) = true) ∧
    ("⚠️ 大级别看空但小级别反弹中" ∈ conflictWarnings (validTfs tfs) ↔
      longBearish (validTfs tfs) = true ∧ shortBullish (validTfs tfs) = true ∧
        ¬(longBullish (validTfs tfs) = true ∧
          shortBearish (validTfs tfs) = true)) := by
  have hw : ("⚠️ 大级别看空但小级别反弹中" : String)
      ≠ "⚠️ 大级别看多但小级别回调中" := by decide
  refine ⟨fun h => by simp [generate_summary, h], ?_, ?_⟩ <;>
    · unfold conflictWarnings
      split_ifs with h1 h2 <;> simp_all

/-- C5 witness for the amended theorem, at the two-conflict report. -/
theorem conflict_warning_spec_witness :
    (generate_summary bothConflictTfs).details
      = (validTfs bothConflictTfs).map
          (fun tf => tf.name ++ ": " ++ tf.consensus.label)
        ++ conflictWarnings (validTfs bothConflictTfs) :=
  (conflict_warning_spec bothConflictTfs).1 (by decide)

-- ============================================================
-- Indexed sums and arithmetic-progression lemmas (for C6)
-- ============================================================

theorem isum_append (f : ℕ → ℚ → ℚ) (k : ℕ) (l1 l2 : List ℚ) :
    isum f k (l1 ++ l2) = isum f k l1 + isum f (k + l1.length) l2 := by
  induction l1 generalizing k with
  | nil => simp [isum]
  | cons x t ih =>
    show f k x + isum f (k + 1) (t ++ l2)
      = f k x + isum f (k + 1) t + isum f (k + (t.length + 1)) l2
    rw [ih (k + 1), show k + 1 + t.length = k + (t.length + 1) by omega]
    ring

theorem enumFrom_sum_eq_isum (f : ℕ → ℚ → ℚ) (c : List ℚ) (k : ℕ) :
    ((List.enumFrom k c).map (fun p => f p.1 p.2)).sum = isum f k c := by
  induction c generalizing k with
  | nil => simp [isum]
  | cons x t ih => simp [List.enumFrom, isum, ih]

theorem enum_sum_eq_isum (f : ℕ → ℚ → ℚ) (c : List ℚ) :
    (c.enum.map (fun p => f p.1 p.2)).sum = isum f 0 c :=
  enumFrom_sum_eq_isum f c 0

theorem arithSeq_length (a b : ℚ) (n : ℕ) : (arithSeq a b n).length = n :=
  (List.length_map _ _).trans (List.length_range n)

theorem arithSeq_succ (a b : ℚ) (n : ℕ) :
    arithSeq a b (n + 1) = arithSeq a b n ++ [a + b * n] := by
  simp [arithSeq, List.range_succ]

theorem qS1_closed (n : ℕ) : 2 * qS1 n = n * (n - 1 : ℚ) := by
  induction n with
  | zero => simp [qS1]
  | succ m ih =>
    simp only [qS1]
    push_cast
    push_cast at ih
    ring_nf
    ring_nf at ih
    linarith

theorem qS2_closed (n : ℕ) : 6 * qS2 n = n * (n - 1 : ℚ) * (2 * n - 1) := by
  induction n with
  | zero => simp [qS2]
  | succ m ih =>
    simp only [qS2]
    push_cast
    push_cast at ih
    ring_nf
    ring_nf at ih
    linarith

theorem sumX_isum (c : List ℚ) : sumX c = isum (fun i _ => (i : ℚ)) 0 c :=
  enum_sum_eq_isum (fun i _ => (i : ℚ)) c

theorem sumXX_isum (c : List ℚ) : sumXX c = isum (fun i _ => (i : ℚ) ^ 2) 0 c :=
  enum_sum_eq_isum (fun i _ => (i : ℚ) ^ 2) c

theorem sumXY_isum (c : List ℚ) : sumXY c = isum (fun i x => (i : ℚ) * x) 0 c :=
  enum_sum_eq_isum (fun i x => (i : ℚ) * x) c

theorem sumX_arith (a b : ℚ) (n : ℕ) : sumX (arithSeq a b n) = qS1 n := by
  rw [sumX_isum]
  induction n with
  | zero => simp [arithSeq, isum, qS1]
  | succ m ih =>
    rw [arithSeq_succ, isum_append, arithSeq_length, ih]
    simp [isum, qS1]

theorem sumXX_arith (a b : ℚ) (n : ℕ) : sumXX (arithSeq a b n) = qS2 n := by
  rw [sumXX_isum]
  induction n with
  | zero => simp [arithSeq, isum, qS2]
  | succ m ih =>
    rw [arithSeq_succ, isum_append, arithSeq_length, ih]
    simp [isum, qS2]

theorem sumXY_arith (a b : ℚ) (n : ℕ) :
    sumXY (arithSeq a b n) = a * qS1 n + b * qS2 n := by
  rw [sumXY_isum]
  induction n with
  | zero => simp [arithSeq, isum, qS1, qS2]
  | succ m ih =>
    rw [arithSeq_succ, isum_append, arithSeq_length, ih]
    simp only [isum, qS1, qS2]
    ring

theorem sum_arith (a b : ℚ) (n : ℕ) :
    (arithSeq a b n).sum = n * a + b * qS1 n := by
  induction n with
  | zero => simp [arithSeq, qS1]
  | succ m ih =>
    rw [arithSeq_succ, List.sum_append, ih]
    simp only [List.sum_cons, List.sum_nil, qS1]
    push_cast
    ring

theorem fitDen_arith (a b : ℚ) (n : ℕ) :
    fitDen (arithSeq a b n) = n * qS2 n - (qS1 n) ^ 2 := by
  rw [fitDen, sumXX_arith, sumX_arith, arithSeq_length]

theorem fitDen_arith_pos (a b : ℚ) (n : ℕ) (hn : 2 ≤ n) :
    0 < fitDen (arithSeq a b n) := by
  have h1 := qS1_closed n
  have h2 := qS2_closed n
  have h12 : 12 * fitDen (arithSeq a b n)
      = (n : ℚ) ^ 2 * ((n : ℚ) - 1) * ((n : ℚ) + 1) := by
    rw [fitDen_arith]
    linear_combination (-3 * (2 * qS1 n + (n : ℚ) * ((n : ℚ) - 1))) * h1
      + (2 * (n : ℚ)) * h2
  have hn' : (2 : ℚ) ≤ (n : ℚ) := by exact_mod_cast hn
  have hpos : 0 < (n : ℚ) ^ 2 * ((n : ℚ) - 1) * ((n : ℚ) + 1) := by
    apply mul_pos (mul_pos (by positivity) (by linarith)) (by linarith)
  linarith

theorem linregSlope_arith (a b : ℚ) (n : ℕ) (hn : 2 ≤ n) :
    linregSlope (arithSeq a b n) = b := by
  have hd : fitDen (arithSeq a b n) ≠ 0 := ne_of_gt (fitDen_arith_pos a b n hn)
  unfold linregSlope
  rw [sumXY_arith, sumX_arith, sum_arith, arithSeq_length, div_eq_iff hd,
    fitDen_arith]
  ring

theorem linregIntercept_arith (a b : ℚ) (n : ℕ) (hn : 2 ≤ n) :
    linregIntercept (arithSeq a b n) = a := by
  have hn0 : ((arithSeq a b n).length : ℚ) ≠ 0 := by
    rw [arithSeq_length]
    exact_mod_cast (by omega : n ≠ 0)
  unfold linregIntercept
  rw [div_eq_iff hn0, linregSlope_arith a b n hn, sum_arith, sumX_arith,
    arithSeq_length]
  ring

theorem ssRes_isum (c : List ℚ) :
    ssRes c = isum
      (fun i x => (x - (linregSlope c * i + linregIntercept c)) ^ 2) 0 c := by
  unfold ssRes residuals
  rw [List.map_map]
  exact enum_sum_eq_isum
    (fun i x => (x - (linregSlope c * i + linregIntercept c)) ^ 2) c

theorem isum_sq_zero (a b : ℚ) (n : ℕ) :
    isum (fun i x => (x - (b * i + a)) ^ 2) 0 (arithSeq a b n) = 0 := by
  induction n with
  | zero => simp [arithSeq, isum]
  | succ m ih =>
    rw [arithSeq_succ, isum_append, arithSeq_length, ih]
    simp [isum]
    ring_nf

theorem ssRes_arith (a b : ℚ) (n : ℕ) (hn : 2 ≤ n) :
    ssRes (arithSeq a b n) = 0 := by
  rw [ssRes_isum, linregSlope_arith a b n hn, linregIntercept_arith a b n hn]
  exact isum_sq_zero a b n

theorem sq_list_sum_nonneg (l : List ℚ) (t : ℚ) :
    0 ≤ (l.map (fun x => (x - t) ^ 2)).sum := by
  apply List.sum_nonneg
  intro z hz
  obtain ⟨x, _, rfl⟩ := List.mem_map.mp hz
  exact sq_nonneg _

theorem sum_sq_entries_zero (l : List ℚ) (t : ℚ)
    (h : (l.map (fun x => (x - t) ^ 2)).sum = 0) : ∀ x ∈ l, x = t := by
  induction l with
  | nil => simp
  | cons y ys ih =>
    simp only [List.map_cons, List.sum_cons] at h
    have h1 : 0 ≤ (y - t) ^ 2 := sq_nonneg _
    have h2 : 0 ≤ (ys.map (fun x => (x - t) ^ 2)).sum := sq_list_sum_nonneg ys t
    have hy : y = t := by
      have : (y - t) ^ 2 = 0 := by linarith
      have := pow_eq_zero_iff (n := 2) (by omega) |>.mp this
      linarith [this]
    intro x hx
    rcases List.mem_cons.mp hx with hxy | hxs
    · rw [hxy, hy]
    · exact ih (by linarith [sq_nonneg (y - t)]) x hxs

theorem mem_arithSeq (a b : ℚ) (n j : ℕ) (hj : j < n) :
    a + b * j ∈ arithSeq a b n :=
  List.mem_map.mpr ⟨j, List.mem_range.mpr hj, rfl⟩

theorem ssTot_arith_pos (a b : ℚ) (n : ℕ) (hb : b ≠ 0) (hn : 2 ≤ n) :
    0 < ssTot (arithSeq a b n) := by
  have hnn : 0 ≤ ssTot (arithSeq a b n) :=
    sq_list_sum_nonneg (arithSeq a b n) (meanQ (arithSeq a b n))
  rcases eq_or_lt_of_le hnn with heq | hlt
  · exfalso
    have hall := sum_sq_entries_zero (arithSeq a b n)
      (meanQ (arithSeq a b n)) heq.symm
    have hm0 : a + b * ((0 : ℕ) : ℚ) ∈ arithSeq a b n :=
      mem_arithSeq a b n 0 (by omega)
    have hm1 : a + b * ((1 : ℕ) : ℚ) ∈ arithSeq a b n :=
      mem_arithSeq a b n 1 (by omega)
    have e0 := hall _ hm0
    have e1 := hall _ hm1
    push_cast at e0 e1
    apply hb
    linarith
  · exact hlt

theorem linregR2_arith (a b : ℚ) (n : ℕ) (hb : b ≠ 0) (hn : 2 ≤ n) :
    linregR2 (arithSeq a b n) = 1 := by
  unfold linregR2
  rw [if_pos (ssTot_arith_pos a b n hb hn), ssRes_arith a b n hn]
  simp

theorem linreg_analyze_channelType (adx_t r2_t : ℚ) (sqrtQ : ℚ → ℚ)
    (adx : ℚ) (df : List Bar) (lookback sma_short sma_long : ℕ)
    (h : df.length ≥ max lookback (sma_long + 10)) :
    (linreg_analyze adx_t r2_t sqrtQ adx df lookback sma_short
        sma_long).channelType?
      = some (linregChannelType (linregR2 (lastN lookback (closes df)))
          (linregSlope (lastN lookback (closes df))) adx adx_t r2_t
          (smaCrossLabel (closes df) sma_short sma_long)) := by
  simp only [linreg_analyze]
  rw [if_neg (not_lt.mpr h)]
  rfl

set_option maxHeartbeats 1600000 in
theorem linregChannelType_cases (r2 slope adx adx_t r2_t : ℚ) (lab : String) :
    (linregChannelType r2 slope adx adx_t r2_t lab = CHANNEL_UP ↔
      r2 ≥ r2_t ∧ adx ≥ adx_t ∧ slope > 0 ∧ lab ≠ "空头排列") ∧
    (linregChannelType r2 slope adx adx_t r2_t lab = CHANNEL_DOWN ↔
      r2 ≥ r2_t ∧ adx ≥ adx_t ∧ ¬slope > 0 ∧ lab ≠ "多头排列") ∧
    (linregChannelType r2 slope adx adx_t r2_t lab = CHANNEL_TRANSITION ↔
      ((r2 ≥ r2_t ∧ ¬adx ≥ adx_t) ∨
       (r2 ≥ r2_t ∧ adx ≥ adx_t ∧ slope > 0 ∧ lab = "空头排列") ∨
       (r2 ≥ r2_t ∧ adx ≥ adx_t ∧ ¬slope > 0 ∧ lab = "多头排列"))) ∧
    (linregChannelType r2 slope adx adx_t r2_t lab = CHANNEL_SIDEWAYS ↔
      ¬r2 ≥ r2_t) := by
  have hne : ¬(("多头排列" : String) = "空头排列") := by simp
  unfold linregChannelType CHANNEL_UP CHANNEL_DOWN CHANNEL_SIDEWAYS
    CHANNEL_TRANSITION
  by_cases hl1 : lab = "多头排列" <;> by_cases hl2 : lab = "空头排列" <;>
  by_cases hr : r2 ≥ r2_t <;> by_cases ha : adx ≥ adx_t <;>
  by_cases hs : slope > 0 <;>
    simp only [hl1, hl2, hr, ha, hs, and_true, true_and, and_false, false_and,
      if_true, if_false, ite_true, ite_false, eq_self_iff_true,
      not_true, not_false_eq_true, iff_true, iff_false, ne_eq] <;>
    simp_all

-- ============================================================
-- C6
-- ============================================================

/-- C6: the regression variant on sufficient data classifies by the
stated rule: Up iff R² ≥ r2-threshold, ADX ≥ adx-threshold, positive
slope and no bearish-MA downgrade; Down symmetrically (non-positive
slope, no bullish-MA downgrade); Transitioning iff R² passes but ADX
fails, or a downgrade fired; Sideways iff R² fails.  Consequently a
perfectly linear strictly ascending close window has R² = 1 and, at the
default thresholds, is classified Up or Transitioning, never Down. -/
theorem linreg_classification_spec
    (adx_t r2_t : ℚ) (sqrtQ : ℚ → ℚ) (adx : ℚ) (df : List Bar)
    (lookback sma_short sma_long : ℕ) :
    (df.length ≥ max lookback (sma_long + 10) →
      (linreg_analyze adx_t r2_t sqrtQ adx df lookback sma_short
          sma_long).channelType?
        = some (linregChannelType (linregR2 (lastN lookback (closes df)))
            (linregSlope (lastN lookback (closes df))) adx adx_t r2_t
            (smaCrossLabel (closes df) sma_short sma_long)) ∧
      ((linregChannelType (linregR2 (lastN lookback (closes df)))
            (linregSlope (lastN lookback (closes df))) adx adx_t r2_t
            (smaCrossLabel (closes df) sma_short sma_long) = CHANNEL_UP ↔
          linregR2 (lastN lookback (closes df)) ≥ r2_t ∧ adx ≥ adx_t ∧
          linregSlope (lastN lookback (closes df)) > 0 ∧
          smaCrossLabel (closes df) sma_short sma_long ≠ "空头排列") ∧
        (linregChannelType (linregR2 (lastN lookback (closes df)))
            (linregSlope (lastN lookback (closes df))) adx adx_t r2_t
            (smaCrossLabel (closes df) sma_short sma_long) = CHANNEL_DOWN ↔
          linregR2 (lastN lookback (closes df)) ≥ r2_t ∧ adx ≥ adx_t ∧
          ¬linregSlope (lastN lookback (closes df)) > 0 ∧
          smaCrossLabel (closes df) sma_short sma_long ≠ "多头排列") ∧
        (linregChannelType (linregR2 (lastN lookback (closes df)))
            (linregSlope (lastN lookback (closes df))) adx adx_t r2_t
            (smaCrossLabel (closes df) sma_short sma_long)
              = CHANNEL_TRANSITION ↔
          ((linregR2 (lastN lookback (closes df)) ≥ r2_t ∧ ¬adx ≥ adx_t) ∨
           (linregR2 (lastN lookback (closes df)) ≥ r2_t ∧ adx ≥ adx_t ∧
             linregSlope (lastN lookback (closes df)) > 0 ∧
             smaCrossLabel (closes df) sma_short sma_long = "空头排列") ∨
           (linregR2 (lastN lookback (closes df)) ≥ r2_t ∧ adx ≥ adx_t ∧
             ¬linregSlope (lastN lookback (closes df)) > 0 ∧
             smaCrossLabel (closes df) sma_short sma_long = "多头排列"))) ∧
        (linregChannelType (linregR2 (lastN lookback (closes df)))
            (linregSlope (lastN lookback (closes df))) adx adx_t r2_t
            (smaCrossLabel (closes df) sma_short sma_long)
              = CHANNEL_SIDEWAYS ↔
          ¬linregR2 (lastN lookback (closes df)) ≥ r2_t))) ∧
    (∀ a b : ℚ, 0 < b → 2 ≤ lookback →
      lastN lookback (closes df) = arithSeq a b lookback →
      df.length ≥ max lookback (sma_long + 10) →
      linregR2 (lastN lookback (closes df)) = 1 ∧
      ((linreg_analyze 25 (1/2) sqrtQ adx df lookback sma_short
            sma_long).channelType? = some CHANNEL_UP ∨
       (linreg_analyze 25 (1/2) sqrtQ adx df lookback sma_short
            sma_long).channelType? = some CHANNEL_TRANSITION) ∧
      (linreg_analyze 25 (1/2) sqrtQ adx df lookback sma_short
          sma_long).channelType? ≠ some CHANNEL_DOWN) := by
  constructor
  · intro h
    exact ⟨linreg_analyze_channelType adx_t r2_t sqrtQ adx df lookback
        sma_short sma_long h,
      linregChannelType_cases _ _ _ _ _ _⟩
  · intro a b hb hlk harith h
    have hr2 : linregR2 (lastN lookback (closes df)) = 1 := by
      rw [harith]
      exact linregR2_arith a b lookback (ne_of_gt hb) hlk
    have hsl : linregSlope (lastN lookback (closes df)) = b := by
      rw [harith]
      exact linregSlope_arith a b lookback hlk
    have hwire := linreg_analyze_channelType 25 (1/2) sqrtQ adx df lookback
      sma_short sma_long h
    rw [hr2, hsl] at hwire
    have h12 : (1 : ℚ) ≥ 1/2 := by norm_num
    have hval : linregChannelType 1 b adx 25 (1/2)
          (smaCrossLabel (closes df) sma_short sma_long) = CHANNEL_UP ∨
        linregChannelType 1 b adx 25 (1/2)
          (smaCrossLabel (closes df) sma_short sma_long)
            = CHANNEL_TRANSITION := by
      unfold linregChannelType CHANNEL_UP CHANNEL_DOWN CHANNEL_SIDEWAYS
        CHANNEL_TRANSITION
      by_cases ha : adx ≥ 25 <;>
        by_cases hl2 : smaCrossLabel (closes df) sma_short sma_long
          = "空头排列" <;>
        by_cases hl1 : smaCrossLabel (closes df) sma_short sma_long
          = "多头排列" <;>
        simp_all [hb]
    refine ⟨hr2, ?_, ?_⟩
    · rcases hval with hv | hv
      · left
        rw [hwire, hv]
      · right
        rw [hwire, hv]
    · rw [hwire]
      rcases hval with hv | hv <;> rw [hv] <;>
        simp [CHANNEL_UP, CHANNEL_DOWN, CHANNEL_TRANSITION]

/-- C6 witness: the concrete linear series under default thresholds. -/
theorem linreg_classification_spec_witness :
    linregR2 (lastN 12 (closes dfLin)) = 1 ∧
    ((linreg_analyze 25 (1/2) id 0 dfLin 12 1 2).channelType?
        = some CHANNEL_UP ∨
     (linreg_analyze 25 (1/2) id 0 dfLin 12 1 2).channelType?
        = some CHANNEL_TRANSITION) ∧
    (linreg_analyze 25 (1/2) id 0 dfLin 12 1 2).channelType?
        ≠ some CHANNEL_DOWN :=
  (linreg_classification_spec 25 (1/2) id 0 dfLin 12 1 2).2 1 1
    (by norm_num) (by norm_num)
    (by simp [dfLin, closes, lastN, arithSeq, List.map_map])
    (by simp [dfLin])

-- ============================================================
-- Pivot lemmas (for C7)
-- ============================================================

theorem foldl_max_init_le (t : List ℚ) (x : ℚ) : x ≤ t.foldl max x := by
  induction t generalizing x with
  | nil => simp
  | cons y ys ih => exact le_trans (le_max_left x y) (ih (max x y))

theorem mem_le_foldl_max (t : List ℚ) (init x : ℚ) (hx : x ∈ t) :
    x ≤ t.foldl max init := by
  induction t generalizing init with
  | nil => simp at hx
  | cons y ys ih =>
    rcases List.mem_cons.mp hx with rfl | hxy
    · exact le_trans (le_max_right init x) (foldl_max_init_le ys _)
    · exact ih _ hxy

theorem le_maxQ_of_mem (l : List ℚ) (x : ℚ) (hx : x ∈ l) : x ≤ maxQ l := by
  cases l with
  | nil => simp at hx
  | cons h t =>
    rw [maxQ]
    rcases List.mem_cons.mp hx with rfl | hxt
    · exact foldl_max_init_le t x
    · exact mem_le_foldl_max t h x hxt

theorem le_foldl_min_init (t : List ℚ) (x : ℚ) : t.foldl min x ≤ x := by
  induction t generalizing x with
  | nil => simp
  | cons y ys ih => exact le_trans (ih (min x y)) (min_le_left x y)

theorem foldl_min_le_mem (t : List ℚ) (init x : ℚ) (hx : x ∈ t) :
    t.foldl min init ≤ x := by
  induction t generalizing init with
  | nil => simp at hx
  | cons y ys ih =>
    rcases List.mem_cons.mp hx with rfl | hxy
    · exact le_trans (le_foldl_min_init ys _) (min_le_right init x)
    · exact ih _ hxy

theorem minQ_le_of_mem (l : List ℚ) (x : ℚ) (hx : x ∈ l) : minQ l ≤ x := by
  cases l with
  | nil => simp at hx
  | cons h t =>
    rw [minQ]
    rcases List.mem_cons.mp hx with rfl | hxt
    · exact le_foldl_min_init t x
    · exact foldl_min_le_mem t h x hxt

theorem find_pivots_nil_high (v : List ℚ) (w : ℕ) (hw : 1 ≤ w)
    (hc : v.Chain' (· < ·)) : find_pivots v w true = [] := by
  rw [find_pivots, List.filterMap_eq_nil_iff]
  intro i hi
  rw [List.mem_range'_1] at hi
  obtain ⟨hiw, hilt⟩ := hi
  have hi0 : i < v.length := by omega
  have hi1 : i + 1 < v.length := by omega
  have hchain := List.chain'_iff_get.mp hc i (by omega)
  simp only [List.get_eq_getElem] at hchain
  have hgetD : v.getD i 0 = v[i] := by
    rw [List.getD_eq_getElem?_getD, List.getElem?_eq_getElem hi0]
    rfl
  have hmem : v[i + 1] ∈ (v.drop (i + 1)).take w := by
    have h0 : 0 < ((v.drop (i + 1)).take w).length := by
      simp [List.length_take, List.length_drop]
      omega
    have : ((v.drop (i + 1)).take w)[0] = v[i + 1] := by
      rw [List.getElem_take, List.getElem_drop]
    rw [← this]
    exact List.getElem_mem h0
  have hle := le_maxQ_of_mem _ _ hmem
  simp only [Bool.true_eq, if_true]
  rw [if_neg]
  rintro ⟨-, h2⟩
  rw [hgetD] at h2
  have : v[i] < v[i + 1] := hchain
  exact absurd (le_trans hle h2) (not_le.mpr this)

theorem find_pivots_nil_low (v : List ℚ) (w : ℕ) (hw : 1 ≤ w)
    (hc : v.Chain' (· < ·)) : find_pivots v w false = [] := by
  rw [find_pivots, List.filterMap_eq_nil_iff]
  intro i hi
  rw [List.mem_range'_1] at hi
  obtain ⟨hiw, hilt⟩ := hi
  have hi0 : i < v.length := by omega
  have him : i - 1 < v.length := by omega
  have hchain := List.chain'_iff_get.mp hc (i - 1) (by omega)
  simp only [List.get_eq_getElem] at hchain
  have hgetD : v.getD i 0 = v[i] := by
    rw [List.getD_eq_getElem?_getD, List.getElem?_eq_getElem hi0]
    rfl
  have hmem : v[i - 1] ∈ (v.drop (i - w)).take w := by
    have hlen : w - 1 < ((v.drop (i - w)).take w).length := by
      simp [List.length_take, List.length_drop]
      omega
    have : ((v.drop (i - w)).take w)[w - 1] = v[i - 1] := by
      rw [List.getElem_take, List.getElem_drop]
      congr 1
      omega
    rw [← this]
    exact List.getElem_mem hlen
  have hle := minQ_le_of_mem _ _ hmem
  simp only [Bool.false_eq_true, if_false]
  rw [if_neg]
  rintro ⟨hL, -⟩
  rw [hgetD] at hL
  have hlt : v[i - 1] < v[i] := by
    have : i - 1 + 1 = i := by omega
    simpa [this] using hchain
  exact absurd (le_trans hL hle) (not_le.mpr hlt)

-- ============================================================
-- C7
-- ============================================================

/-- C7: the pivot-trendline variant on a window with fewer than 3 pivot
highs or fewer than 3 pivot lows returns Sideways with
`upper_band = max high`, `lower_band = min low`, `center = mean close`
(all rounded to 2 decimals as in the source), `position_pct = 50.0`, the
insufficient-pivots cross label and the insufficient-pivots note; in
particular any series whose highs and lows strictly increase over the
lookback window (pivot window ≥ 1) has zero pivots and lands in exactly
this branch. -/
theorem trendline_insufficient_pivots_spec (pivot_window : ℕ) (adx : ℚ)
    (df : List Bar) (lookback : ℕ) :
    (df.length ≥ lookback →
      ((find_pivots (highs (lastN lookback df)) pivot_window true).length < 3 ∨
       (find_pivots (lows (lastN lookback df)) pivot_window false).length < 3) →
      trendline_analyze pivot_window adx df lookback = .ok
        { strategy_name := "高低点趋势线"
          channel_type := CHANNEL_SIDEWAYS
          current_price := roundDec 2 (lastD (closes (lastN lookback df)))
          upper_band := roundDec 2 (maxQ (highs (lastN lookback df)))
          lower_band := roundDec 2 (minQ (lows (lastN lookback df)))
          center := roundDec 2 (meanQ (closes (lastN lookback df)))
          position_pct := 50
          sma_cross := "极值点不足"
          details := [
            ("high_pivots",
              .nat (find_pivots (highs (lastN lookback df)) pivot_window
                true).length),
            ("low_pivots",
              .nat (find_pivots (lows (lastN lookback df)) pivot_window
                false).length),
            ("note", .str "局部极值点不足，无法拟合趋势线")] }) ∧
    (1 ≤ pivot_window →
      (highs (lastN lookback df)).Chain' (· < ·) →
      (lows (lastN lookback df)).Chain' (· < ·) →
      df.length ≥ lookback →
      trendline_analyze pivot_window adx df lookback = .ok
        { strategy_name := "高低点趋势线"
          channel_type := CHANNEL_SIDEWAYS
          current_price := roundDec 2 (lastD (closes (lastN lookback df)))
          upper_band := roundDec 2 (maxQ (highs (lastN lookback df)))
          lower_band := roundDec 2 (minQ (lows (lastN lookback df)))
          center := roundDec 2 (meanQ (closes (lastN lookback df)))
          position_pct := 50
          sma_cross := "极值点不足"
          details := [
            ("high_pivots", .nat 0),
            ("low_pivots", .nat 0),
            ("note", .str "局部极值点不足，无法拟合趋势线")] }) := by
  have part1 : df.length ≥ lookback →
      ((find_pivots (highs (lastN lookback df)) pivot_window true).length < 3 ∨
       (find_pivots (lows (lastN lookback df)) pivot_window false).length < 3) →
      trendline_analyze pivot_window adx df lookback = .ok
        { strategy_name := "高低点趋势线"
          channel_type := CHANNEL_SIDEWAYS
          current_price := roundDec 2 (lastD (closes (lastN lookback df)))
          upper_band := roundDec 2 (maxQ (highs (lastN lookback df)))
          lower_band := roundDec 2 (minQ (lows (lastN lookback df)))
          center := roundDec 2 (meanQ (closes (lastN lookback df)))
          position_pct := 50
          sma_cross := "极值点不足"
          details := [
            ("high_pivots",
              .nat (find_pivots (highs (lastN lookback df)) pivot_window
                true).length),
            ("low_pivots",
              .nat (find_pivots (lows (lastN lookback df)) pivot_window
                false).length),
            ("note", .str "局部极值点不足，无法拟合趋势线")] } := by
    intro h hcond
    simp only [trendline_analyze]
    rw [if_neg (not_lt.mpr h), if_pos hcond]
  refine ⟨part1, ?_⟩
  intro hw hch hcl h
  have hH := find_pivots_nil_high _ _ hw hch
  have hL := find_pivots_nil_low _ _ hw hcl
  have := part1 h (by rw [hH]; left; simp)
  rw [this, hH, hL]
  rfl

/-- C7 witness: the strictly increasing series with the default pivot
window lands in the insufficient-pivots branch. -/
theorem trendline_insufficient_pivots_spec_witness :
    trendline_analyze 5 0 dfTr 12 = .ok
      { strategy_name := "高低点趋势线"
        channel_type := CHANNEL_SIDEWAYS
        current_price := roundDec 2 (lastD (closes (lastN 12 dfTr)))
        upper_band := roundDec 2 (maxQ (highs (lastN 12 dfTr)))
        lower_band := roundDec 2 (minQ (lows (lastN 12 dfTr)))
        center := roundDec 2 (meanQ (closes (lastN 12 dfTr)))
        position_pct := 50
        sma_cross := "极值点不足"
        details := [
          ("high_pivots", .nat 0),
          ("low_pivots", .nat 0),
          ("note", .str "局部极值点不足，无法拟合趋势线")] } :=
  (trendline_insufficient_pivots_spec 5 0 dfTr 12).2 (by norm_num)
    (by norm_num [dfTr, highs, lastN, List.map_map, List.chain'_iff_get])
    (by norm_num [dfTr, lows, lastN, List.map_map, List.chain'_iff_get])
    (by norm_num [dfTr])

-- ============================================================
-- C8
-- ============================================================

/-- C8 counterexample: on a strictly increasing series whose short SMA
exceeds its long SMA (so the claimed label would be the bullish
alignment), the pivot-trendline variant's `sma_cross` field is the
insufficient-pivots text — not any of the three SMA-cross labels.  Only
the regression variant carries the SMA-cross label. -/
theorem sma_cross_label_cex :
    (trendline_analyze 1 0 dfC8 3).smaCross? = some "极值点不足" ∧
    smaCrossLabel (closes dfC8) 1 2 = "多头排列" ∧
    (trendline_analyze 1 0 dfC8 3).smaCross? ≠ some "多头排列" ∧
    (trendline_analyze 1 0 dfC8 3).smaCross? ≠ some "空头排列" ∧
    (trendline_analyze 1 0 dfC8 3).smaCross? ≠ some "数据不足" := by
  refine ⟨rfl, ?_, by decide, by decide, by decide⟩
  norm_num [smaCrossLabel, calc_sma_cross, smaLast, meanQ, lastN, closes, dfC8]

/-- C8 amended: the regression variant's result carries the SMA-cross
label of `_calc_sma_cross` (bullish alignment iff short SMA > long SMA,
bearish otherwise, insufficient-data iff either SMA is undefined); the
other three variants reuse the `sma_cross` field for variant-specific
text instead. -/
theorem sma_cross_label_spec (adx_t r2_t : ℚ) (sqrtQ : ℚ → ℚ) (adx : ℚ)
    (df : List Bar) (lookback sma_short sma_long : ℕ) :
    (df.length ≥ max lookback (sma_long + 10) →
      (linreg_analyze adx_t r2_t sqrtQ adx df lookback sma_short
          sma_long).smaCross?
        = some (smaCrossLabel (closes df) sma_short sma_long)) ∧
    (∀ s l : ℚ, smaLast (closes df) sma_short = some s →
      smaLast (closes df) sma_long = some l →
      smaCrossLabel (closes df) sma_short sma_long
        = if s > l then "多头排列" else "空头排列") ∧
    ((smaLast (closes df) sma_short = none ∨
      smaLast (closes df) sma_long = none) →
      smaCrossLabel (closes df) sma_short sma_long = "数据不足") := by
  refine ⟨?_, ?_, ?_⟩
  · intro h
    simp only [linreg_analyze]
    rw [if_neg (not_lt.mpr h)]
    rfl
  · intro s l hs hl
    unfold smaCrossLabel calc_sma_cross
    rw [hs, hl]
  · intro h
    unfold smaCrossLabel calc_sma_cross
    rcases h with h | h <;> rw [h] <;>
      cases smaLast (closes df) sma_short <;>
      cases smaLast (closes df) sma_long <;> rfl

/-- C8 witness: the regression variant on the linear series, and the
insufficient-data label with a zero-length short window. -/
theorem sma_cross_label_spec_witness :
    (linreg_analyze 25 (1/2) id 0 dfLin 12 1 2).smaCross?
      = some (smaCrossLabel (closes dfLin) 1 2) ∧
    smaCrossLabel (closes dfLin) 0 2 = "数据不足" :=
  ⟨(sma_cross_label_spec 25 (1/2) id 0 dfLin 12 1 2).1 (by simp [dfLin]),
   (sma_cross_label_spec 25 (1/2) id 0 dfLin 12 0 2).2.2
     (Or.inl (by simp [smaLast]))⟩

-- ============================================================
-- C9
-- ============================================================

/-- C9 counterexample: passing the volatility-band construction parameter
`bb_period` with the default (all-four) strategy list makes
`get_strategies` raise `TypeError`: the kwargs are forwarded to every
selected constructor, and `LinearRegressionStrategy.__init__` does not
accept `bb_period`.  This refutes "accepts optional per-strategy
construction parameters without failing". -/
theorem get_strategies_kwargs_cex :
    get_strategies Option.none ["bb_period"]
      = .error "TypeError: unexpected keyword argument" := by
  rfl

/-- C9 amended: the registry maps exactly the four identifiers
(regression / volatility-band / range / pivot-trendline, i.e.
`regression`/`bollinger`/`donchian`/`trendline`); with no construction
parameters `get_strategies` returns, for every requested name list,
one instance per recognized identifier in order, skipping unknown ids
(with a printed warning) and never raising; `None` or an empty list
selects all four; but a construction parameter not accepted by a selected
constructor raises `TypeError` — with the default list, any parameter not
accepted by the regression constructor already fails. -/
theorem get_strategies_spec :
    (∀ n : String,
      (ALL_STRATEGIES.find? (fun p => p.1 == n)).isSome
        ↔ n ∈ DEFAULT_STRATEGY_NAMES) ∧
    (∀ names : List String, get_strategies (some names) []
        = .ok (if names.isEmpty then [.regression, .bollinger, .donchian,
            .trendline] else names.filterMap resolveName)) ∧
    (get_strategies Option.none []
      = .ok [.regression, .bollinger, .donchian, .trendline]) ∧
    (get_strategies (some []) []
      = .ok [.regression, .bollinger, .donchian, .trendline]) ∧
    (∀ kwargs : List String, ∀ p ∈ kwargs,
      p ∉ acceptedParams .regression →
      get_strategies Option.none kwargs
        = .error "TypeError: unexpected keyword argument") := by
  have hgo : ∀ (ns : List String) (acc : List SKind),
      ns.foldlM (fun acc n =>
        match resolveName n with
        | some k => (constructStrategy k []).map (fun s => acc ++ [s])
        | Option.none => .ok acc) acc
        = Except.ok (acc ++ ns.filterMap resolveName) := by
    intro ns
    induction ns with
    | nil =>
      intro acc
      rw [List.filterMap_nil, List.append_nil]
      rfl
    | cons n t ih =>
      intro acc
      rw [List.foldlM_cons, List.filterMap_cons]
      rcases hres : resolveName n with - | k
      · simp only [hres]
        exact ih acc
      · simp only [hres]
        have h2 := ih (acc ++ [k])
        rw [show (acc ++ [k]) ++ t.filterMap resolveName
          = acc ++ k :: t.filterMap resolveName by simp] at h2
        exact h2
  refine ⟨?_, ?_, ?_, ?_, ?_⟩
  · intro n
    by_cases h1 : n = "regression"
    · subst h1; simp [ALL_STRATEGIES, DEFAULT_STRATEGY_NAMES]
    · by_cases h2 : n = "bollinger"
      · subst h2; simp [ALL_STRATEGIES, DEFAULT_STRATEGY_NAMES]
      · by_cases h3 : n = "donchian"
        · subst h3; simp [ALL_STRATEGIES, DEFAULT_STRATEGY_NAMES]
        · by_cases h4 : n = "trendline"
          · subst h4; simp [ALL_STRATEGIES, DEFAULT_STRATEGY_NAMES]
          · have h1f : (("regression" : String) == n) = false := by
              simp [beq_eq_false_iff_ne]
              exact fun he => h1 he.symm
            have h2f : (("bollinger" : String) == n) = false := by
              simp [beq_eq_false_iff_ne]
              exact fun he => h2 he.symm
            have h3f : (("donchian" : String) == n) = false := by
              simp [beq_eq_false_iff_ne]
              exact fun he => h3 he.symm
            have h4f : (("trendline" : String) == n) = false := by
              simp [beq_eq_false_iff_ne]
              exact fun he => h4 he.symm
            simp [ALL_STRATEGIES, DEFAULT_STRATEGY_NAMES, List.find?_cons,
              h1f, h2f, h3f, h4f, h1, h2, h3, h4]
  · intro names
    rcases names with - | ⟨n, t⟩
    · rfl
    · rw [show get_strategies (some (n :: t)) []
        = (n :: t).foldlM (fun acc n =>
            match resolveName n with
            | some k => (constructStrategy k []).map (fun s => acc ++ [s])
            | Option.none => .ok acc) [] from rfl]
      rw [hgo (n :: t) []]
      simp
  · rw [show get_strategies Option.none []
      = DEFAULT_STRATEGY_NAMES.foldlM (fun acc n =>
          match resolveName n with
          | some k => (constructStrategy k []).map (fun s => acc ++ [s])
          | Option.none => .ok acc) [] from rfl]
    rw [hgo DEFAULT_STRATEGY_NAMES []]
    rfl
  · rw [show get_strategies (some []) []
      = DEFAULT_STRATEGY_NAMES.foldlM (fun acc n =>
          match resolveName n with
          | some k => (constructStrategy k []).map (fun s => acc ++ [s])
          | Option.none => .ok acc) [] from rfl]
    rw [hgo DEFAULT_STRATEGY_NAMES []]
    rfl
  · intro kwargs p hp hnp
    have hcon : constructStrategy .regression kwargs
        = .error "TypeError: unexpected keyword argument" := by
      rw [constructStrategy, if_neg]
      rw [List.all_eq_true]
      push_neg
      refine ⟨p, hp, fun hc => hnp (List.elem_iff.mp hc)⟩
    have hstep : get_strategies Option.none kwargs
        = (constructStrategy SKind.regression kwargs).map
            (fun s => ([] : List SKind) ++ [s]) >>= fun acc =>
          List.foldlM (fun acc n =>
            match resolveName n with
            | some k => (constructStrategy k kwargs).map (fun s => acc ++ [s])
            | Option.none => .ok acc) acc
            ["bollinger", "donchian", "trendline"] := rfl
    rw [hstep, hcon]
    rfl

/-- C9 witness for the amended theorem: a range-variant parameter also
fails under the default list. -/
theorem get_strategies_spec_witness :
    get_strategies Option.none ["dc_period"]
      = .error "TypeError: unexpected keyword argument" :=
  get_strategies_spec.2.2.2.2 ["dc_period"] "dc_period" (by simp) (by decide)

-- ============================================================
-- Chunking and extremum lemmas (for C10)
-- ============================================================

theorem chunkBy_join (key : Bar → ℕ) (l : List Bar) :
    (chunkBy key l).flatten = l := by
  induction l with
  | nil => rfl
  | cons b t ih =>
    cases t with
    | nil => rfl
    | cons c rest =>
      rw [chunkBy]
      cases hg : chunkBy key (c :: rest) with
      | nil =>
        rw [hg] at ih
        simp at ih
      | cons g gs =>
        rw [hg] at ih
        simp only [List.flatten_cons] at ih
        split_ifs <;> simp [List.flatten_cons, ih]

theorem chunkBy_mem_ne_nil (key : Bar → ℕ) (l : List Bar) :
    ∀ g ∈ chunkBy key l, g ≠ [] := by
  induction l with
  | nil => simp [chunkBy]
  | cons b t ih =>
    cases t with
    | nil => simp [chunkBy]
    | cons c rest =>
      rw [chunkBy]
      cases hg : chunkBy key (c :: rest) with
      | nil => simp
      | cons g gs =>
        rw [hg] at ih
        split_ifs <;> intro x hx
        · rcases List.mem_cons.mp hx with rfl | hxs
          · simp
          · exact ih x (List.mem_cons_of_mem g hxs)
        · rcases List.mem_cons.mp hx with rfl | hxs
          · simp
          · exact ih x hxs

theorem chunkBy_ne_nil (key : Bar → ℕ) (l : List Bar) (h : l ≠ []) :
    chunkBy key l ≠ [] := by
  cases l with
  | nil => exact absurd rfl h
  | cons b t =>
    cases t with
    | nil => simp [chunkBy]
    | cons c rest =>
      rw [chunkBy]
      cases chunkBy key (c :: rest) with
      | nil => simp
      | cons g gs => split_ifs <;> simp

theorem foldl_max_comm (t : List ℚ) (a b : ℚ) :
    t.foldl max (max a b) = max a (t.foldl max b) := by
  induction t generalizing b with
  | nil => simp
  | cons y ys ih => simp only [List.foldl_cons, max_assoc, ih]

theorem maxQ_cons (a : ℚ) (l : List ℚ) (h : l ≠ []) :
    maxQ (a :: l) = max a (maxQ l) := by
  cases l with
  | nil => exact absurd rfl h
  | cons y ys =>
    simp only [maxQ, List.foldl_cons]
    exact foldl_max_comm ys a y

theorem maxQ_append (l1 l2 : List ℚ) (h1 : l1 ≠ []) (h2 : l2 ≠ []) :
    maxQ (l1 ++ l2) = max (maxQ l1) (maxQ l2) := by
  induction l1 with
  | nil => exact absurd rfl h1
  | cons a t ih =>
    cases t with
    | nil =>
      simp only [List.singleton_append]
      rw [maxQ_cons a l2 h2]
      rfl
    | cons c rest =>
      rw [List.cons_append, maxQ_cons a ((c :: rest) ++ l2) (by simp),
        maxQ_cons a (c :: rest) (by simp), ih (by simp), max_assoc]

theorem foldl_min_comm (t : List ℚ) (a b : ℚ) :
    t.foldl min (min a b) = min a (t.foldl min b) := by
  induction t generalizing b with
  | nil => simp
  | cons y ys ih => simp only [List.foldl_cons, min_assoc, ih]

theorem minQ_cons (a : ℚ) (l : List ℚ) (h : l ≠ []) :
    minQ (a :: l) = min a (minQ l) := by
  cases l with
  | nil => exact absurd rfl h
  | cons y ys =>
    simp only [minQ, List.foldl_cons]
    exact foldl_min_comm ys a y

theorem minQ_append (l1 l2 : List ℚ) (h1 : l1 ≠ []) (h2 : l2 ≠ []) :
    minQ (l1 ++ l2) = min (minQ l1) (minQ l2) := by
  induction l1 with
  | nil => exact absurd rfl h1
  | cons a t ih =>
    cases t with
    | nil =>
      simp only [List.singleton_append]
      rw [minQ_cons a l2 h2]
      rfl
    | cons c rest =>
      rw [List.cons_append, minQ_cons a ((c :: rest) ++ l2) (by simp),
        minQ_cons a (c :: rest) (by simp), ih (by simp), min_assoc]

theorem join_ne_nil_of_head (gs : List (List ℚ)) (hne : ∀ g ∈ gs, g ≠ [])
    (h : gs ≠ []) : gs.flatten ≠ [] := by
  cases gs with
  | nil => exact absurd rfl h
  | cons g rest =>
    simp only [List.flatten_cons]
    have : g ≠ [] := hne g (List.mem_cons_self g rest)
    cases g with
    | nil => exact absurd rfl this
    | cons x xs => simp

theorem maxQ_join (gs : List (List ℚ)) (hne : ∀ g ∈ gs, g ≠ [])
    (h : gs ≠ []) : maxQ (gs.map maxQ) = maxQ gs.flatten := by
  induction gs with
  | nil => exact absurd rfl h
  | cons g rest ih =>
    cases hrest : rest with
    | nil => simp [maxQ]
    | cons g2 rest2 =>
      have hne' : ∀ x ∈ rest, x ≠ [] := by
        intro x hx
        exact hne x (List.mem_cons_of_mem g hx)
      have hrne : rest ≠ [] := by simp [hrest]
      have hgne : g ≠ [] := hne g (List.mem_cons_self g rest)
      rw [← hrest]
      rw [List.map_cons, List.flatten_cons,
        maxQ_cons (maxQ g) (rest.map maxQ) (by simp [hrest]),
        ih hne' hrne,
        maxQ_append g rest.flatten hgne
          (join_ne_nil_of_head rest hne' hrne)]

theorem minQ_join (gs : List (List ℚ)) (hne : ∀ g ∈ gs, g ≠ [])
    (h : gs ≠ []) : minQ (gs.map minQ) = minQ gs.flatten := by
  induction gs with
  | nil => exact absurd rfl h
  | cons g rest ih =>
    cases hrest : rest with
    | nil => simp [minQ]
    | cons g2 rest2 =>
      have hne' : ∀ x ∈ rest, x ≠ [] := by
        intro x hx
        exact hne x (List.mem_cons_of_mem g hx)
      have hrne : rest ≠ [] := by simp [hrest]
      have hgne : g ≠ [] := hne g (List.mem_cons_self g rest)
      rw [← hrest]
      rw [List.map_cons, List.flatten_cons,
        minQ_cons (minQ g) (rest.map minQ) (by simp [hrest]),
        ih hne' hrne,
        minQ_append g rest.flatten hgne
          (join_ne_nil_of_head rest hne' hrne)]

-- ============================================================
-- C10
-- ============================================================

/-- C10: resampling to a coarser interval aggregates each bucket with
`open = first, high = max, low = min, close = last, volume = sum`, and
globally preserves the total volume, the maximum of the high column and
the minimum of the low column. -/
theorem resample_preservation_spec (delta : ℕ) (df : List Bar) :
    (∀ (b : Bar) (t : List Bar), aggBar delta (b :: t)
      = { time := b.time / delta * delta
          op := b.op
          high := maxQ (highs (b :: t))
          low := minQ (lows (b :: t))
          close := lastD (closes (b :: t))
          volume := (volumes (b :: t)).sum }) ∧
    ((resample delta df).map Bar.volume).sum = (df.map Bar.volume).sum ∧
    (df ≠ [] →
      maxQ ((resample delta df).map Bar.high) = maxQ (df.map Bar.high)) ∧
    (df ≠ [] →
      minQ ((resample delta df).map Bar.low) = minQ (df.map Bar.low)) := by
  have hmem := chunkBy_mem_ne_nil (fun b => b.time / delta) df
  refine ⟨fun b t => rfl, ?_, ?_, ?_⟩
  · rw [resample, List.map_map]
    have step1 : (chunkBy (fun b => b.time / delta) df).map
          (Bar.volume ∘ aggBar delta)
        = ((chunkBy (fun b => b.time / delta) df).map
            (fun g => g.map Bar.volume)).map List.sum := by
      rw [List.map_map]
      apply List.map_eq_map_iff.mpr
      intro g _
      cases g <;> rfl
    rw [step1, ← List.sum_flatten, ← List.map_flatten, chunkBy_join]
  · intro h
    have hchne := chunkBy_ne_nil (fun b => b.time / delta) df h
    rw [resample, List.map_map]
    have step1 : (chunkBy (fun b => b.time / delta) df).map
          (Bar.high ∘ aggBar delta)
        = ((chunkBy (fun b => b.time / delta) df).map
            (fun g => g.map Bar.high)).map maxQ := by
      rw [List.map_map]
      apply List.map_eq_map_iff.mpr
      intro g hg
      cases g with
      | nil => exact absurd rfl (hmem [] hg)
      | cons x xs => rfl
    rw [step1, maxQ_join _ ?_ ?_, ← List.map_flatten, chunkBy_join]
    · intro x hx
      obtain ⟨g, hg, rfl⟩ := List.mem_map.mp hx
      have := hmem g hg
      cases g with
      | nil => exact absurd rfl this
      | cons y ys => simp
    · simp only [ne_eq, List.map_eq_nil_iff]
      exact hchne
  · intro h
    have hchne := chunkBy_ne_nil (fun b => b.time / delta) df h
    rw [resample, List.map_map]
    have step1 : (chunkBy (fun b => b.time / delta) df).map
          (Bar.low ∘ aggBar delta)
        = ((chunkBy (fun b => b.time / delta) df).map
            (fun g => g.map Bar.low)).map minQ := by
      rw [List.map_map]
      apply List.map_eq_map_iff.mpr
      intro g hg
      cases g with
      | nil => exact absurd rfl (hmem [] hg)
      | cons x xs => rfl
    rw [step1, minQ_join _ ?_ ?_, ← List.map_flatten, chunkBy_join]
    · intro x hx
      obtain ⟨g, hg, rfl⟩ := List.mem_map.mp hx
      have := hmem g hg
      cases g with
      | nil => exact absurd rfl this
      | cons y ys => simp
    · simp only [ne_eq, List.map_eq_nil_iff]
      exact hchne

/-- C10 witness: a concrete two-bucket series. -/
theorem resample_preservation_spec_witness :
    maxQ ((resample 2 dfC8).map Bar.high) = maxQ (dfC8.map Bar.high) ∧
    minQ ((resample 2 dfC8).map Bar.low) = minQ (dfC8.map Bar.low) ∧
    ((resample 2 dfC8).map Bar.volume).sum = (dfC8.map Bar.volume).sum :=
  ⟨(resample_preservation_spec 2 dfC8).2.2.1 (by simp [dfC8]),
   (resample_preservation_spec 2 dfC8).2.2.2 (by simp [dfC8]),
   (resample_preservation_spec 2 dfC8).2.1⟩
